import Mathlib

/-!
Shallow embedding of the audio stream-dump subsystem
(`StreamDumper.cpp/.h`, `AudioDumpManager.cpp/.h`).

The writer (`StreamDumper`) is modelled as a pure state machine: the C++
member variables become fields of a `Dumper` structure; the filesystem,
the coordinator bookkeeping (`AudioDumpManager`) and the diagnostic log
become an explicit `World` structure threaded through every operation.
Byte payloads are modelled by byte counts only (no claim in scope depends
on the dumped byte values, only on how many bytes land where). Fallible
OS calls (`open`, `write`, `rename`, the queue-file append, directory
bootstrap) are driven by an explicit environment `Env` of success
oracles, indexed by the length of the event trace at the moment of the
call so that distinct calls can succeed or fail independently.
-/

namespace AudioDump

/-- `StreamDumper::BUFFER_SIZE` (256 KiB). -/
def BUFFER_SIZE : Nat := 256 * 1024

/-- `StreamDumper::FLUSH_THRESHOLD` (10 MiB). -/
def FLUSH_THRESHOLD : Nat := 10 * 1024 * 1024

/-- `StreamDumper::MAX_FILE_SIZE` (100 MiB), the rotation threshold. -/
def MAX_FILE_SIZE : Nat := 100 * 1024 * 1024

theorem BUFFER_SIZE_eq : BUFFER_SIZE = 262144 := rfl

theorem FLUSH_THRESHOLD_eq : FLUSH_THRESHOLD = 10485760 := rfl

theorem MAX_FILE_SIZE_eq : MAX_FILE_SIZE = 104857600 := rfl

/-- `AudioStreamType` from `AudioDumpManager.h`. -/
inductive AudioStreamType
  | STREAM_OUT
  | STREAM_IN
deriving DecidableEq

/-- `StreamDumper::GetStreamTypeString`. -/
def GetStreamTypeString : AudioStreamType → String
  | .STREAM_OUT => "streamout"
  | .STREAM_IN => "streamin"

/-- One decimal digit rendered as a character (the digits produced by
`snprintf` with `%u`). -/
def digitChar : Nat → Char
  | 0 => '0' | 1 => '1' | 2 => '2' | 3 => '3' | 4 => '4'
  | 5 => '5' | 6 => '6' | 7 => '7' | 8 => '8' | _ => '9'

/-- Decimal rendering of a natural number, exactly as `snprintf`'s `%u`
prints an unsigned integer (most significant digit first, `"0"` for
zero). -/
def natStr (n : Nat) : String :=
  if n = 0 then "0" else ((Nat.digits 10 n).map digitChar).reverse.asString

/-- `StreamDumper::GenerateFilename`:
`audio_<kind>_<timestamp>_<counter>_<fileindex>.pcm`, with the suffix
replaced by `.pcm.tmp` while the file is still being written. -/
def GenerateFilename (ty : AudioStreamType) (timestamp : String)
    (baseCounter fileIndex : Nat) (withTmp : Bool) : String :=
  "audio_" ++ GetStreamTypeString ty ++ "_" ++ timestamp ++ "_" ++
    natStr baseCounter ++ "_" ++ natStr fileIndex ++ "." ++
    (if withTmp then "pcm.tmp" else "pcm")

theorem digitChar_inj {a b : Nat} (ha : a < 10) (hb : b < 10)
    (h : digitChar a = digitChar b) : a = b := by
  interval_cases a <;> interval_cases b <;> simp_all [digitChar]

theorem map_digitChar_inj : ∀ {l1 l2 : List Nat}, (∀ x ∈ l1, x < 10) →
    (∀ x ∈ l2, x < 10) → l1.map digitChar = l2.map digitChar → l1 = l2
  | [], [], _, _, _ => rfl
  | [], _ :: _, _, _, h => by simp at h
  | _ :: _, [], _, _, h => by simp at h
  | a :: l1, b :: l2, h1, h2, h => by
    simp only [List.map_cons, List.cons.injEq] at h
    have hab : a = b :=
      digitChar_inj (h1 a (by simp)) (h2 b (by simp)) h.1
    have hl : l1 = l2 :=
      map_digitChar_inj (fun x hx => h1 x (by simp [hx]))
        (fun x hx => h2 x (by simp [hx])) h.2
    rw [hab, hl]

theorem digits_map_ne_zero_char {n : Nat} (hn : n ≠ 0)
    (h : (Nat.digits 10 n).map digitChar = ['0']) : False := by
  have hlen : (Nat.digits 10 n).length = 1 := by
    have := congrArg List.length h
    simpa using this
  obtain ⟨d, hd⟩ := List.length_eq_one.mp hlen
  rw [hd] at h
  simp only [List.map_cons, List.map_nil, List.cons.injEq] at h
  have hdlt : d < 10 :=
    Nat.digits_lt_base (by norm_num) (hd ▸ List.mem_singleton.mpr rfl)
  have hd0 : d = 0 := digitChar_inj hdlt (by norm_num) (h.1.trans rfl)
  have : n = 0 := by
    have hn' := Nat.ofDigits_digits 10 n
    rw [hd, hd0] at hn'
    simpa [Nat.ofDigits] using hn'.symm
  exact hn this

theorem natStr_inj {m n : Nat} (h : natStr m = natStr n) : m = n := by
  unfold natStr at h
  by_cases hm : m = 0 <;> by_cases hn : n = 0
  · omega
  · rw [if_pos hm, if_neg hn] at h
    exfalso
    have hd : ['0'] = ((Nat.digits 10 n).map digitChar).reverse :=
      congrArg String.data h
    have hz : (Nat.digits 10 n).map digitChar = ['0'] := by
      have := congrArg List.reverse hd
      simpa using this.symm
    exact digits_map_ne_zero_char hn hz
  · rw [if_neg hm, if_pos hn] at h
    exfalso
    have hd : ((Nat.digits 10 m).map digitChar).reverse = ['0'] :=
      congrArg String.data h
    have hz : (Nat.digits 10 m).map digitChar = ['0'] := by
      have := congrArg List.reverse hd
      simpa using this
    exact digits_map_ne_zero_char hm hz
  · rw [if_neg hm, if_neg hn] at h
    have hd : ((Nat.digits 10 m).map digitChar).reverse
        = ((Nat.digits 10 n).map digitChar).reverse :=
      congrArg String.data h
    have hmap : (Nat.digits 10 m).map digitChar
        = (Nat.digits 10 n).map digitChar :=
      List.reverse_injective hd
    have hdig : Nat.digits 10 m = Nat.digits 10 n :=
      map_digitChar_inj
        (fun x hx => Nat.digits_lt_base (by norm_num) hx)
        (fun x hx => Nat.digits_lt_base (by norm_num) hx) hmap
    have := congrArg (Nat.ofDigits 10) hdig
    rwa [Nat.ofDigits_digits, Nat.ofDigits_digits] at this

theorem str_append_cancel_left {c a b : String} (h : c ++ a = c ++ b) :
    a = b := by
  have h2 := congrArg String.data h
  rw [String.data_append, String.data_append] at h2
  exact String.ext (List.append_cancel_left h2)

theorem str_append_cancel_right {c a b : String} (h : a ++ c = b ++ c) :
    a = b := by
  have h2 := congrArg String.data h
  rw [String.data_append, String.data_append] at h2
  exact String.ext (List.append_cancel_right h2)

theorem data_getLast?_append (s t : String) (h : t.data ≠ []) :
    (s ++ t).data.getLast? = t.data.getLast? := by
  rw [String.data_append]
  exact List.getLast?_append_of_ne_nil _ h

theorem gen_last_true (ty : AudioStreamType) (ts : String) (c i : Nat) :
    (GenerateFilename ty ts c i true).data.getLast? = some 'p' := by
  have he : GenerateFilename ty ts c i true =
      ("audio_" ++ GetStreamTypeString ty ++ "_" ++ ts ++ "_" ++
        natStr c ++ "_" ++ natStr i ++ ".") ++ "pcm.tmp" := rfl
  rw [he, data_getLast?_append _ _ (by decide)]
  rfl

theorem gen_last_false (ty : AudioStreamType) (ts : String) (c i : Nat) :
    (GenerateFilename ty ts c i false).data.getLast? = some 'm' := by
  have he : GenerateFilename ty ts c i false =
      ("audio_" ++ GetStreamTypeString ty ++ "_" ++ ts ++ "_" ++
        natStr c ++ "_" ++ natStr i ++ ".") ++ "pcm" := rfl
  rw [he, data_getLast?_append _ _ (by decide)]
  rfl

theorem gen_data_ne_nil (ty : AudioStreamType) (ts : String) (c i : Nat)
    (b : Bool) : (GenerateFilename ty ts c i b).data ≠ [] := by
  intro h
  have hl := congrArg List.getLast? h
  cases b
  · rw [gen_last_false] at hl
    simp at hl
  · rw [gen_last_true] at hl
    simp at hl

/-- A path ending in the temporary suffix is never equal to a path ending
in the final suffix, whatever the directory, stream kind, timestamp,
counter and file index on either side. -/
theorem tmp_path_ne_final_path (D1 D2 ts1 ts2 : String)
    (ty1 ty2 : AudioStreamType) (c1 c2 i1 i2 : Nat) :
    D1 ++ GenerateFilename ty1 ts1 c1 i1 true ≠
      D2 ++ GenerateFilename ty2 ts2 c2 i2 false := by
  intro h
  have h' := congrArg (fun s : String => s.data.getLast?) h
  simp only at h'
  rw [data_getLast?_append _ _ (gen_data_ne_nil _ _ _ _ _),
    data_getLast?_append _ _ (gen_data_ne_nil _ _ _ _ _),
    gen_last_true, gen_last_false] at h'
  simp at h'

/-- Within one writer (fixed kind, timestamp, counter, suffix), the
generated filename determines the file index. -/
theorem gen_index_inj (ty : AudioStreamType) (ts : String) (c : Nat)
    (b : Bool) {i j : Nat}
    (h : GenerateFilename ty ts c i b = GenerateFilename ty ts c j b) :
    i = j := by
  have he : ∀ k, GenerateFilename ty ts c k b =
      (("audio_" ++ GetStreamTypeString ty ++ "_" ++ ts ++ "_" ++
        natStr c ++ "_" ++ natStr k) ++ ".") ++
        (if b then "pcm.tmp" else "pcm") := fun k => rfl
  rw [he i, he j] at h
  have h1 := str_append_cancel_right h
  have h2 := str_append_cancel_right h1
  have h3 := str_append_cancel_left h2
  exact natStr_inj h3

/-- Same-writer paths with the same suffix kind determine the file
index. -/
theorem path_index_inj (D ts : String) (ty : AudioStreamType) (c : Nat)
    (b : Bool) {i j : Nat}
    (h : D ++ GenerateFilename ty ts c i b =
      D ++ GenerateFilename ty ts c j b) : i = j :=
  gen_index_inj ty ts c b (str_append_cancel_left h)

/-- Observable filesystem / coordinator / log events, recorded in
chronological order. `wrote` is a successful `mFile.write` of the given
number of bytes to the given path; `renamed` is a successful
`rename(tmp, final)` of a file holding `size` bytes; `notified` is the
`AUDIO_DUMP_READY` logcat line emitted by
`AudioDumpManager::OnDumpFileCompleted`. -/
inductive Event
  | opened (path : String)
  | wrote (path : String) (bytes : Nat)
  | renamed (src : String) (dst : String) (size : Nat)
  | renameFailed (src : String)
  | unlinked (path : String)
  | notified (filename : String)
  | dirEnsured
deriving DecidableEq

/-- The member variables of `StreamDumper` (`StreamDumper.h`). The byte
buffer `mBuffer` is represented by its fill level `mBufferOffset` alone;
the `std::ofstream mFile` is represented by its `is_open` state. -/
structure Dumper where
  mType : AudioStreamType
  mDumpDirectory : String
  mTimestamp : String
  mBaseCounter : Nat
  mFileIndex : Nat
  mFileOpen : Bool
  mCurrentFilePath : String
  mCurrentFilename : String
  mBufferOffset : Nat
  mCurrentFileSize : Nat
  mBytesSinceFlush : Nat
  mTotalBytesWritten : Nat
  mFileCount : Nat
  mIsValid : Bool
deriving DecidableEq

/-- Everything outside the writer: the disk (an association list from
path to byte count), the coordinator's completed-file queue
(`mCompletedFiles`), the `.queue` index file contents (one filename per
line), the manager's `mInitialized` flag and `mFileCounter`, and the
chronological event trace. -/
structure World where
  disk : List (String × Nat)
  completedFiles : List String
  queueFile : List String
  initialized : Bool
  fileCounter : Nat
  trace : List Event
deriving DecidableEq

/-- Success oracles for the fallible OS interactions, plus the values of
the two dump switches (system properties) and the timestamp the manager
captures at writer creation. Each oracle is indexed by the trace length
at the moment of the call, so distinct calls can behave differently. -/
structure Env where
  streamoutProp : String
  streaminProp : String
  dirOk : Bool
  timestamp : String
  openOk : Nat → Bool
  writeOk : Nat → Bool
  renameOk : Nat → Bool
  appendOk : Nat → Bool

/-- The environment in which every OS interaction succeeds and both dump
switches read `"1"`. -/
def envAllOk : Env :=
  { streamoutProp := "1"
    streaminProp := "1"
    dirOk := true
    timestamp := "19700101_000000"
    openOk := fun _ => true
    writeOk := fun _ => true
    renameOk := fun _ => true
    appendOk := fun _ => true }

/-- Create-or-truncate semantics of opening with `std::ios::trunc`, and
the destination overwrite of `rename(2)`: set the entry for `name`,
replacing an existing entry or appending a fresh one. -/
def diskSet : List (String × Nat) → String → Nat → List (String × Nat)
  | [], name, sz => [(name, sz)]
  | e :: rest, name, sz =>
    if e.1 = name then (name, sz) :: rest else e :: diskSet rest name sz

/-- `unlink(2)`: drop the entry for `name`. -/
def diskRemove (d : List (String × Nat)) (name : String) :
    List (String × Nat) :=
  d.filter (fun e => e.1 != name)

/-- Size of the file at `name`, if present. -/
def diskLookup : List (String × Nat) → String → Option Nat
  | [], _ => none
  | e :: rest, name => if e.1 = name then some e.2 else diskLookup rest name

/-- `AudioDumpManager::OnDumpFileCompleted`: push the filename on the
in-memory queue, append it to the `.queue` file (best effort), then emit
the `AUDIO_DUMP_READY` notification line. -/
def OnDumpFileCompleted (env : Env) (filename : String) (w : World) :
    World :=
  let w1 := { w with completedFiles := w.completedFiles ++ [filename] }
  let w2 := if env.appendOk w1.trace.length then
    { w1 with queueFile := w1.queueFile ++ [filename] } else w1
  { w2 with trace := w2.trace ++ [Event.notified filename] }

/-- `StreamDumper::OpenNewFile`: generate the final and temporary names
from the current `mFileIndex`, open (create/truncate) the temp-named
file, and on success reset the per-file counters and advance
`mFileCount` and `mFileIndex`. -/
def OpenNewFile (env : Env) (s : Dumper) (w : World) :
    Bool × Dumper × World :=
  let filename :=
    GenerateFilename s.mType s.mTimestamp s.mBaseCounter s.mFileIndex false
  let tmpName :=
    GenerateFilename s.mType s.mTimestamp s.mBaseCounter s.mFileIndex true
  let path := s.mDumpDirectory ++ tmpName
  let s1 := { s with mCurrentFilename := filename, mCurrentFilePath := path }
  if env.openOk w.trace.length then
    (true,
      { s1 with
        mFileOpen := true
        mCurrentFileSize := 0
        mBytesSinceFlush := 0
        mBufferOffset := 0
        mFileCount := s1.mFileCount + 1
        mFileIndex := s1.mFileIndex + 1 },
      { w with
        disk := diskSet w.disk path 0
        trace := w.trace ++ [Event.opened path] })
  else
    (false, s1, w)

/-- `StreamDumper::CloseCurrentFile`: close the handle; if the close is
`complete` and the file has nonzero flushed bytes, rename temp → final
and notify the coordinator on success (rename failure is only logged);
otherwise unlink the temp file. -/
def CloseCurrentFile (env : Env) (complete : Bool) (s : Dumper)
    (w : World) : Dumper × World :=
  if s.mFileOpen then
    let s1 := { s with mFileOpen := false }
    if complete ∧ 0 < s1.mCurrentFileSize then
      let finalPath := s1.mDumpDirectory ++ s1.mCurrentFilename
      if env.renameOk w.trace.length then
        let sz := (diskLookup w.disk s1.mCurrentFilePath).getD 0
        let w1 := { w with
          disk := diskSet (diskRemove w.disk s1.mCurrentFilePath) finalPath sz
          trace := w.trace ++ [Event.renamed s1.mCurrentFilePath finalPath sz] }
        let w2 := OnDumpFileCompleted env s1.mCurrentFilename w1
        ({ s1 with mCurrentFilePath := "" }, w2)
      else
        ({ s1 with mCurrentFilePath := "" },
          { w with trace := w.trace ++ [Event.renameFailed s1.mCurrentFilePath] })
    else
      ({ s1 with mCurrentFilePath := "" },
        { w with
          disk := diskRemove w.disk s1.mCurrentFilePath
          trace := w.trace ++ [Event.unlinked s1.mCurrentFilePath] })
  else
    (s, w)

/-- `StreamDumper::FlushBuffer`: write the buffered bytes to the current
file and advance the flushed-byte counters. A failed stream write is
modelled as writing nothing (the C++ checks `mFile.good()` after the
write and reports failure without updating any counter). -/
def FlushBuffer (env : Env) (s : Dumper) (w : World) :
    Bool × Dumper × World :=
  if s.mBufferOffset = 0 then
    (true, s, w)
  else if s.mFileOpen then
    if env.writeOk w.trace.length then
      let sz := (diskLookup w.disk s.mCurrentFilePath).getD 0
      (true,
        { s with
          mCurrentFileSize := s.mCurrentFileSize + s.mBufferOffset
          mTotalBytesWritten := s.mTotalBytesWritten + s.mBufferOffset
          mBytesSinceFlush := s.mBytesSinceFlush + s.mBufferOffset
          mBufferOffset := 0 },
        { w with
          disk := diskSet w.disk s.mCurrentFilePath (sz + s.mBufferOffset)
          trace := w.trace ++ [Event.wrote s.mCurrentFilePath s.mBufferOffset] })
    else
      (false, s, w)
  else
    (false, s, w)

/-- End-of-iteration periodic flush check of `WriteData`: `mFile.flush()`
followed by resetting `mBytesSinceFlush` once it reaches
`FLUSH_THRESHOLD` (the stream flush itself moves no new bytes in this
model: flushed bytes are already on disk). -/
def checkPeriodic (s : Dumper) : Dumper :=
  if FLUSH_THRESHOLD ≤ s.mBytesSinceFlush then
    { s with mBytesSinceFlush := 0 }
  else
    s

/-- One iteration of the `while (bytesRemaining > 0)` loop of
`StreamDumper::WriteData`, minus the leading rotation check: copy into
the buffer, flush if the buffer is full, run the periodic flush check.
Returns `(ok, bytesRemaining, state, world)`; `ok = false` is the
`return -1` path, with `mIsValid` already cleared by the caller's
code. -/
def WriteIterCopy (env : Env) (remaining : Nat) (s : Dumper) (w : World) :
    Bool × Nat × Dumper × World :=
  let spaceInBuffer := BUFFER_SIZE - s.mBufferOffset
  let bytesToCopy := min remaining spaceInBuffer
  let s1 := { s with mBufferOffset := s.mBufferOffset + bytesToCopy }
  let remaining1 := remaining - bytesToCopy
  if BUFFER_SIZE ≤ s1.mBufferOffset then
    match FlushBuffer env s1 w with
    | (true, s2, w2) => (true, remaining1, checkPeriodic s2, w2)
    | (false, s2, w2) => (false, remaining1, { s2 with mIsValid := false }, w2)
  else
    (true, remaining1, checkPeriodic s1, w)

/-- One full iteration of the `WriteData` loop: the rotation check
(finalize the current file and open the next one when
`mCurrentFileSize >= MAX_FILE_SIZE`), then the copy/flush step. -/
def WriteIter (env : Env) (remaining : Nat) (s : Dumper) (w : World) :
    Bool × Nat × Dumper × World :=
  if MAX_FILE_SIZE ≤ s.mCurrentFileSize then
    let sw := CloseCurrentFile env true s w
    match OpenNewFile env sw.1 sw.2 with
    | (true, s2, w2) => WriteIterCopy env remaining s2 w2
    | (false, s2, w2) => (false, remaining, { s2 with mIsValid := false }, w2)
  else
    WriteIterCopy env remaining s w

/-- The `WriteData` loop. The C++ loop terminates because every
iteration either consumes input bytes or empties a full buffer; here the
same loop is driven by a fuel parameter, which callers instantiate with
`size` — enough fuel for every state whose buffer fill is below
`BUFFER_SIZE`, as the loop lemmas below establish. -/
def WriteLoop (env : Env) : Nat → Nat → Dumper → World →
    Bool × Dumper × World
  | _, 0, s, w => (true, s, w)
  | 0, _ + 1, s, w => (false, { s with mIsValid := false }, w)
  | fuel + 1, remaining + 1, s, w =>
    match WriteIter env (remaining + 1) s w with
    | (true, remaining2, s2, w2) => WriteLoop env fuel remaining2 s2 w2
    | (false, _, s2, w2) => (false, s2, w2)

/-- `StreamDumper::WriteData`. `bufferNull` models `buffer == nullptr`.
Returns the accepted byte count (always `size` on success: the loop runs
until `bytesRemaining` is zero) or `-1`, together with the new writer
state and world. -/
def WriteData (env : Env) (bufferNull : Bool) (size : Nat) (s : Dumper)
    (w : World) : Int × Dumper × World :=
  if !s.mIsValid || bufferNull || size == 0 then
    (-1, s, w)
  else
    match WriteLoop env size size s w with
    | (true, s2, w2) => ((size : Int), s2, w2)
    | (false, s2, w2) => (-1, s2, w2)

/-- `StreamDumper::ForceClose`: if a file is open, write out any
buffered bytes (the C++ does not check this write's result), finalize
the file as complete, and in every case clear `mIsValid`. -/
def ForceClose (env : Env) (s : Dumper) (w : World) : Dumper × World :=
  let sw :=
    if s.mFileOpen then
      let sw1 :=
        if 0 < s.mBufferOffset then
          let sz := (diskLookup w.disk s.mCurrentFilePath).getD 0
          ({ s with
              mCurrentFileSize := s.mCurrentFileSize + s.mBufferOffset
              mTotalBytesWritten := s.mTotalBytesWritten + s.mBufferOffset
              mBufferOffset := 0 },
            { w with
              disk := diskSet w.disk s.mCurrentFilePath (sz + s.mBufferOffset)
              trace := w.trace ++ [Event.wrote s.mCurrentFilePath s.mBufferOffset] })
        else
          (s, w)
      CloseCurrentFile env true sw1.1 sw1.2
    else
      (s, w)
  ({ sw.1 with mIsValid := false }, sw.2)

/-- The `StreamDumper` constructor: initialize every member, open the
first file, and set `mIsValid` only if that open succeeded. -/
def mkStreamDumper (env : Env) (ty : AudioStreamType)
    (dumpDir timestamp : String) (baseCounter : Nat) (w : World) :
    Dumper × World :=
  let s : Dumper :=
    { mType := ty
      mDumpDirectory := dumpDir
      mTimestamp := timestamp
      mBaseCounter := baseCounter
      mFileIndex := 0
      mFileOpen := false
      mCurrentFilePath := ""
      mCurrentFilename := ""
      mBufferOffset := 0
      mCurrentFileSize := 0
      mBytesSinceFlush := 0
      mTotalBytesWritten := 0
      mFileCount := 0
      mIsValid := false }
  match OpenNewFile env s w with
  | (true, s1, w1) => ({ s1 with mIsValid := true }, w1)
  | (false, s1, w1) => (s1, w1)

/-- `AudioDumpManager::DEFAULT_DUMP_DIR`. -/
def DEFAULT_DUMP_DIR : String := "/data/vendor/audio_dump/"

/-- `AudioDumpManager::IsStreamOutDumpEnabled`: the property
`vendor.streamout.pcm.dump` reads `"1"`. -/
def IsStreamOutDumpEnabled (env : Env) : Bool :=
  env.streamoutProp == "1"

/-- `AudioDumpManager::IsStreamInDumpEnabled`: the property
`vendor.streamin.pcm.dump` reads `"1"`. -/
def IsStreamInDumpEnabled (env : Env) : Bool :=
  env.streaminProp == "1"

/-- `AudioDumpManager::Initialize`: ensure the dump directory exists
(`EnsureDumpDirectory`, success given by `env.dirOk`) and set
`mInitialized`. -/
def ManagerInitialize (env : Env) (w : World) : Bool × World :=
  if w.initialized then
    (true, w)
  else if env.dirOk then
    (true, { w with
      initialized := true
      trace := w.trace ++ [Event.dirEnsured] })
  else
    (false, w)

/-- `AudioDumpManager::CreateStreamDumper`: return `none` when the
switch for the stream kind is off; otherwise lazily initialize the
manager, allocate the next counter, capture the timestamp, and construct
a `StreamDumper` (which is returned even if its first open failed). -/
def CreateStreamDumper (env : Env) (ty : AudioStreamType) (w : World) :
    Option Dumper × World :=
  let enabled :=
    match ty with
    | .STREAM_OUT => IsStreamOutDumpEnabled env
    | .STREAM_IN => IsStreamInDumpEnabled env
  if enabled then
    match (if w.initialized then (true, w) else ManagerInitialize env w) with
    | (true, w1) =>
      let counter := w1.fileCounter
      let w2 := { w1 with fileCounter := w1.fileCounter + 1 }
      let sw := mkStreamDumper env ty DEFAULT_DUMP_DIR env.timestamp counter w2
      (some sw.1, sw.2)
    | (false, w1) => (none, w1)
  else
    (none, w)

/-- The empty initial world: empty disk, empty queues, manager not yet
initialized. -/
def emptyWorld : World :=
  { disk := []
    completedFiles := []
    queueFile := []
    initialized := false
    fileCounter := 0
    trace := [] }

/-- The construction-time parameters of one writer. -/
structure WP where
  ty : AudioStreamType
  dir : String
  ts : String
  ctr : Nat

/-- Temp-named path of this writer's file `i`. -/
def tmpPathP (p : WP) (i : Nat) : String :=
  p.dir ++ GenerateFilename p.ty p.ts p.ctr i true

/-- Final-named path of this writer's file `i`. -/
def finalPathP (p : WP) (i : Nat) : String :=
  p.dir ++ GenerateFilename p.ty p.ts p.ctr i false

/-- Final name (without directory) of this writer's file `i`, as passed
to the coordinator. -/
def finalNameP (p : WP) (i : Nat) : String :=
  GenerateFilename p.ty p.ts p.ctr i false

theorem tmpPathP_ne_finalPathP (p : WP) (i j : Nat) :
    tmpPathP p i ≠ finalPathP p j :=
  tmp_path_ne_final_path _ _ _ _ _ _ _ _ _ _

theorem finalPathP_ne_tmpPathP (p : WP) (i j : Nat) :
    finalPathP p i ≠ tmpPathP p j :=
  fun h => tmpPathP_ne_finalPathP p j i h.symm

theorem tmpPathP_inj (p : WP) {i j : Nat} (h : tmpPathP p i = tmpPathP p j) :
    i = j :=
  path_index_inj _ _ _ _ _ h

theorem finalPathP_inj (p : WP) {i j : Nat}
    (h : finalPathP p i = finalPathP p j) : i = j :=
  path_index_inj _ _ _ _ _ h

/-- Number of already-finalized (rotated-away) files after the writer
has accepted `A` bytes in total: one per full `MAX_FILE_SIZE` among the
first `A - 1` bytes. -/
def rotCount (A : Nat) : Nat := (A - 1) / MAX_FILE_SIZE

/-- Total bytes flushed to disk after accepting `A` bytes: everything
except the last partial buffer. -/
def flushedTot (A : Nat) : Nat := A - A % BUFFER_SIZE

/-- Flushed bytes in the current (index `r`) file after accepting `A`
bytes in total. -/
def curSizeg (r A : Nat) : Nat := flushedTot A - r * MAX_FILE_SIZE

/-- Generalized expected writer state at a loop-iteration boundary:
`r` files already rotated away, `A` bytes accepted in total. -/
def Eg (p : WP) (r A : Nat) : Dumper :=
  { mType := p.ty
    mDumpDirectory := p.dir
    mTimestamp := p.ts
    mBaseCounter := p.ctr
    mFileIndex := r + 1
    mFileOpen := true
    mCurrentFilePath := tmpPathP p r
    mCurrentFilename := finalNameP p r
    mBufferOffset := A % BUFFER_SIZE
    mCurrentFileSize := curSizeg r A
    mBytesSinceFlush := curSizeg r A % FLUSH_THRESHOLD
    mTotalBytesWritten := flushedTot A
    mFileCount := r + 1
    mIsValid := true }

/-- Expected writer state after `A` accepted bytes, at a `WriteData`
call boundary (pending rotations are performed lazily at the next
write). -/
def E (p : WP) (A : Nat) : Dumper := Eg p (rotCount A) A

/-- Expected finalized-file disk entries after `r` rotations: files
`0 .. r-1`, each holding exactly `MAX_FILE_SIZE` bytes. -/
def expFinals (p : WP) (r : Nat) : List (String × Nat) :=
  (List.range r).map (fun i => (finalPathP p i, MAX_FILE_SIZE))

/-- Expected coordinator-visible names after `r` rotations. -/
def expNames (p : WP) (r : Nat) : List String :=
  (List.range r).map (finalNameP p)

/-- Expected world contents (other than the trace) at a loop-iteration
boundary with `r` rotations done and `A` bytes accepted, for a single
writer started from `emptyWorld`. -/
def WOkg (p : WP) (r A : Nat) (w : World) : Prop :=
  w.disk = expFinals p r ++ [(tmpPathP p r, curSizeg r A)] ∧
  w.completedFiles = expNames p r ∧
  w.queueFile = expNames p r

/-- Expected world contents after `A` accepted bytes at a call
boundary. -/
def WOkAt (p : WP) (A : Nat) (w : World) : Prop :=
  WOkg p (rotCount A) A w

/-- Conditions satisfied by every loop-iteration-boundary state. -/
def HeadOk (r A : Nat) : Prop :=
  r * MAX_FILE_SIZE ≤ flushedTot A ∧
  curSizeg r A ≤ MAX_FILE_SIZE ∧
  (curSizeg r A = MAX_FILE_SIZE → A % BUFFER_SIZE = 0)

theorem diskSet_fresh : ∀ {l : List (String × Nat)} {n : String} {v : Nat},
    (∀ e ∈ l, e.1 ≠ n) → diskSet l n v = l ++ [(n, v)]
  | [], _, _, _ => rfl
  | e :: rest, n, v, h => by
    simp only [diskSet, if_neg (h e (by simp)), List.cons_append,
      List.cons.injEq, true_and]
    exact diskSet_fresh (fun x hx => h x (by simp [hx]))

theorem diskSet_snoc {l : List (String × Nat)} {n : String} {v v' : Nat}
    (h : ∀ e ∈ l, e.1 ≠ n) :
    diskSet (l ++ [(n, v)]) n v' = l ++ [(n, v')] := by
  induction l with
  | nil => simp [diskSet]
  | cons e rest ih =>
    simp only [List.cons_append, diskSet, if_neg (h e (by simp)),
      List.cons.injEq, true_and]
    exact ih (fun x hx => h x (by simp [hx]))

theorem diskRemove_snoc {l : List (String × Nat)} {n : String} {v : Nat}
    (h : ∀ e ∈ l, e.1 ≠ n) : diskRemove (l ++ [(n, v)]) n = l := by
  induction l with
  | nil => simp [diskRemove]
  | cons e rest ih =>
    have he : (e.1 != n) = true := by
      simpa using h e (by simp)
    simp only [List.cons_append, diskRemove, List.filter_cons, he, if_pos]
    simp only [diskRemove] at ih
    rw [ih (fun x hx => h x (by simp [hx]))]

theorem diskLookup_snoc {l : List (String × Nat)} {n : String} {v : Nat}
    (h : ∀ e ∈ l, e.1 ≠ n) : diskLookup (l ++ [(n, v)]) n = some v := by
  induction l with
  | nil => simp [diskLookup]
  | cons e rest ih =>
    simp only [List.cons_append, diskLookup, if_neg (h e (by simp))]
    exact ih (fun x hx => h x (by simp [hx]))

theorem expFinals_key_ne_tmp (p : WP) (r j : Nat) :
    ∀ e ∈ expFinals p r, e.1 ≠ tmpPathP p j := by
  intro e he
  simp only [expFinals, List.mem_map, List.mem_range] at he
  obtain ⟨i, _, rfl⟩ := he
  exact finalPathP_ne_tmpPathP p i j

theorem expFinals_key_ne_final_ge (p : WP) (r j : Nat) (hj : r ≤ j) :
    ∀ e ∈ expFinals p r, e.1 ≠ finalPathP p j := by
  intro e he
  simp only [expFinals, List.mem_map, List.mem_range] at he
  obtain ⟨i, hi, rfl⟩ := he
  intro h
  have := finalPathP_inj p h
  omega

theorem FlushBuffer_run (s : Dumper) (w : World)
    (ho : ¬ s.mBufferOffset = 0) (hopen : s.mFileOpen = true) :
    FlushBuffer envAllOk s w =
      (true,
        { s with
          mCurrentFileSize := s.mCurrentFileSize + s.mBufferOffset
          mTotalBytesWritten := s.mTotalBytesWritten + s.mBufferOffset
          mBytesSinceFlush := s.mBytesSinceFlush + s.mBufferOffset
          mBufferOffset := 0 },
        { w with
          disk := diskSet w.disk s.mCurrentFilePath
            ((diskLookup w.disk s.mCurrentFilePath).getD 0 + s.mBufferOffset)
          trace := w.trace ++ [Event.wrote s.mCurrentFilePath s.mBufferOffset] }) := by
  unfold FlushBuffer
  rw [if_neg ho, if_pos hopen]
  simp [envAllOk]

theorem CloseCurrentFile_rename_run (s : Dumper) (w : World)
    (hopen : s.mFileOpen = true) (hsz : 0 < s.mCurrentFileSize) :
    CloseCurrentFile envAllOk true s w =
      ({ s with mFileOpen := false, mCurrentFilePath := "" },
        { w with
          disk := diskSet (diskRemove w.disk s.mCurrentFilePath)
            (s.mDumpDirectory ++ s.mCurrentFilename)
            ((diskLookup w.disk s.mCurrentFilePath).getD 0)
          completedFiles := w.completedFiles ++ [s.mCurrentFilename]
          queueFile := w.queueFile ++ [s.mCurrentFilename]
          trace := w.trace ++
            [Event.renamed s.mCurrentFilePath
              (s.mDumpDirectory ++ s.mCurrentFilename)
              ((diskLookup w.disk s.mCurrentFilePath).getD 0),
              Event.notified s.mCurrentFilename] }) := by
  unfold CloseCurrentFile
  rw [if_pos hopen, if_pos (by exact ⟨rfl, hsz⟩)]
  simp [OnDumpFileCompleted, envAllOk]

theorem CloseCurrentFile_unlink_run (s : Dumper) (w : World)
    (hopen : s.mFileOpen = true) (hsz : s.mCurrentFileSize = 0) :
    CloseCurrentFile envAllOk true s w =
      ({ s with mFileOpen := false, mCurrentFilePath := "" },
        { w with
          disk := diskRemove w.disk s.mCurrentFilePath
          trace := w.trace ++ [Event.unlinked s.mCurrentFilePath] }) := by
  unfold CloseCurrentFile
  rw [if_pos hopen, if_neg (by simp [hsz])]

theorem OpenNewFile_run (s : Dumper) (w : World) :
    OpenNewFile envAllOk s w =
      (true,
        { s with
          mCurrentFilename :=
            GenerateFilename s.mType s.mTimestamp s.mBaseCounter s.mFileIndex false
          mCurrentFilePath := s.mDumpDirectory ++
            GenerateFilename s.mType s.mTimestamp s.mBaseCounter s.mFileIndex true
          mFileOpen := true
          mCurrentFileSize := 0
          mBytesSinceFlush := 0
          mBufferOffset := 0
          mFileCount := s.mFileCount + 1
          mFileIndex := s.mFileIndex + 1 },
        { w with
          disk := diskSet w.disk (s.mDumpDirectory ++
            GenerateFilename s.mType s.mTimestamp s.mBaseCounter s.mFileIndex true) 0
          trace := w.trace ++ [Event.opened (s.mDumpDirectory ++
            GenerateFilename s.mType s.mTimestamp s.mBaseCounter s.mFileIndex true)] }) := by
  unfold OpenNewFile
  simp [envAllOk]

/-- One copy/flush iteration advances an expected state `Eg p r A` to
`Eg p r (A + c)` where `c` is the copied chunk, preserving the expected
world shape. -/
theorem WriteIterCopy_Eg (p : WP) (r A m : Nat) (hm : 0 < m) (w : World)
    (hw : WOkg p r A w)
    (hra : r * MAX_FILE_SIZE ≤ flushedTot A)
    (hcur : curSizeg r A < MAX_FILE_SIZE) :
    ∃ w2, WriteIterCopy envAllOk m (Eg p r A) w =
      (true, m - min m (BUFFER_SIZE - A % BUFFER_SIZE),
        Eg p r (A + min m (BUFFER_SIZE - A % BUFFER_SIZE)), w2) ∧
      WOkg p r (A + min m (BUFFER_SIZE - A % BUFFER_SIZE)) w2 := by
  obtain ⟨hdisk, hcomp, hqueue⟩ := hw
  have hraN : r * 104857600 ≤ A - A % 262144 := by
    simpa only [flushedTot, MAX_FILE_SIZE_eq, BUFFER_SIZE_eq] using hra
  have hcurN : A - A % 262144 - r * 104857600 < 104857600 := by
    simpa only [curSizeg, flushedTot, MAX_FILE_SIZE_eq, BUFFER_SIZE_eq]
      using hcur
  by_cases hfull :
      BUFFER_SIZE ≤ A % BUFFER_SIZE + min m (BUFFER_SIZE - A % BUFFER_SIZE)
  · -- the copy fills the buffer: a flush happens
    have hfullN : 262144 ≤ A % 262144 + min m (262144 - A % 262144) := by
      simpa only [BUFFER_SIZE_eq] using hfull
    refine ⟨{ w with
        disk := expFinals p r ++ [(tmpPathP p r,
          curSizeg r A + (A % BUFFER_SIZE +
            min m (BUFFER_SIZE - A % BUFFER_SIZE)))]
        trace := w.trace ++ [Event.wrote (tmpPathP p r)
          (A % BUFFER_SIZE + min m (BUFFER_SIZE - A % BUFFER_SIZE))] },
      ?_, ?_, ?_, ?_⟩
    · simp only [WriteIterCopy, Eg]
      rw [if_pos hfull, FlushBuffer_run]
      · dsimp only
        rw [hdisk, diskLookup_snoc (expFinals_key_ne_tmp p r r),
          diskSet_snoc (expFinals_key_ne_tmp p r r)]
        simp only [Option.getD_some, checkPeriodic]
        by_cases hth : FLUSH_THRESHOLD ≤ curSizeg r A % FLUSH_THRESHOLD +
            (A % BUFFER_SIZE + min m (BUFFER_SIZE - A % BUFFER_SIZE))
        · have hthN : 10485760 ≤
              (A - A % 262144 - r * 104857600) % 10485760 +
              (A % 262144 + min m (262144 - A % 262144)) := by
            simpa only [curSizeg, flushedTot, FLUSH_THRESHOLD_eq,
              BUFFER_SIZE_eq, MAX_FILE_SIZE_eq] using hth
          rw [if_pos hth]
          simp only [Prod.mk.injEq, Dumper.mk.injEq, World.mk.injEq,
            true_and, and_true, List.append_cancel_left_eq,
            List.cons.injEq, Prod.mk.injEq]
          simp only [curSizeg, flushedTot, BUFFER_SIZE_eq,
            MAX_FILE_SIZE_eq, FLUSH_THRESHOLD_eq]
          omega
        · have hthN : ¬ 10485760 ≤
              (A - A % 262144 - r * 104857600) % 10485760 +
              (A % 262144 + min m (262144 - A % 262144)) := by
            simpa only [curSizeg, flushedTot, FLUSH_THRESHOLD_eq,
              BUFFER_SIZE_eq, MAX_FILE_SIZE_eq] using hth
          rw [if_neg hth]
          simp only [Prod.mk.injEq, Dumper.mk.injEq, World.mk.injEq,
            true_and, and_true, List.append_cancel_left_eq,
            List.cons.injEq, Prod.mk.injEq]
          simp only [curSizeg, flushedTot, BUFFER_SIZE_eq,
            MAX_FILE_SIZE_eq, FLUSH_THRESHOLD_eq]
          omega
      · rw [BUFFER_SIZE_eq] at hfull ⊢
        show ¬ A % 262144 + min m (262144 - A % 262144) = 0
        omega
      · rfl
    · have hv : curSizeg r A + (A % BUFFER_SIZE +
          min m (BUFFER_SIZE - A % BUFFER_SIZE)) =
          curSizeg r (A + min m (BUFFER_SIZE - A % BUFFER_SIZE)) := by
        simp only [curSizeg, flushedTot, BUFFER_SIZE_eq, MAX_FILE_SIZE_eq]
        omega
      rw [hv]
    · exact hcomp
    · exact hqueue
  · -- the copy leaves room in the buffer: no flush
    have hfullN : ¬ 262144 ≤ A % 262144 + min m (262144 - A % 262144) := by
      simpa only [BUFFER_SIZE_eq] using hfull
    have hcv : curSizeg r A =
        curSizeg r (A + min m (BUFFER_SIZE - A % BUFFER_SIZE)) := by
      simp only [curSizeg, flushedTot, BUFFER_SIZE_eq, MAX_FILE_SIZE_eq]
      omega
    refine ⟨w, ?_, ?_, hcomp, hqueue⟩
    · simp only [WriteIterCopy, Eg]
      rw [if_neg hfull]
      simp only [checkPeriodic]
      rw [if_neg (by
        have h2 : curSizeg r A % FLUSH_THRESHOLD < FLUSH_THRESHOLD :=
          Nat.mod_lt _ (by rw [FLUSH_THRESHOLD_eq]; omega)
        omega)]
      simp only [Prod.mk.injEq, Dumper.mk.injEq, true_and, and_true]
      simp only [curSizeg, flushedTot, BUFFER_SIZE_eq, MAX_FILE_SIZE_eq,
        FLUSH_THRESHOLD_eq]
      omega
    · rw [hdisk, hcv]

theorem expFinals_succ (p : WP) (r : Nat) :
    expFinals p (r + 1) = expFinals p r ++ [(finalPathP p r, MAX_FILE_SIZE)] := by
  simp [expFinals, List.range_succ]

theorem expNames_succ (p : WP) (r : Nat) :
    expNames p (r + 1) = expNames p r ++ [finalNameP p r] := by
  simp [expNames, List.range_succ]

/-- In a head state, the rotation guard fires exactly when the current
file holds exactly `MAX_FILE_SIZE` flushed bytes, and then the buffer is
empty, everything accepted is flushed, and `A = (r+1) * MAX_FILE_SIZE`. -/
theorem rotation_facts (r A : Nat) (hh : HeadOk r A)
    (hrot : MAX_FILE_SIZE ≤ curSizeg r A) :
    curSizeg r A = MAX_FILE_SIZE ∧ A % BUFFER_SIZE = 0 ∧
    flushedTot A = A ∧ A = r * MAX_FILE_SIZE + MAX_FILE_SIZE ∧
    curSizeg (r + 1) A = 0 ∧ HeadOk (r + 1) A := by
  obtain ⟨h1, h2, h3⟩ := hh
  have hc : curSizeg r A = MAX_FILE_SIZE := le_antisymm h2 hrot
  have hb : A % BUFFER_SIZE = 0 := h3 hc
  simp only [HeadOk, curSizeg, flushedTot, BUFFER_SIZE_eq, MAX_FILE_SIZE_eq,
    FLUSH_THRESHOLD_eq] at *
  omega

/-- Head conditions are preserved by a copy/flush step, and afterwards
the current file or the buffer is nonempty. -/
theorem HeadOk_step (r A m : Nat) (hm : 0 < m) (hh : HeadOk r A)
    (hcur : curSizeg r A < MAX_FILE_SIZE) :
    HeadOk r (A + min m (BUFFER_SIZE - A % BUFFER_SIZE)) ∧
    0 < curSizeg r (A + min m (BUFFER_SIZE - A % BUFFER_SIZE)) +
      (A + min m (BUFFER_SIZE - A % BUFFER_SIZE)) % BUFFER_SIZE := by
  obtain ⟨h1, h2, h3⟩ := hh
  simp only [HeadOk, curSizeg, flushedTot, BUFFER_SIZE_eq, MAX_FILE_SIZE_eq,
    FLUSH_THRESHOLD_eq] at *
  omega

/-- At a head state with a nonempty current file or buffer, the rotation
counter is determined by the accepted byte count. -/
theorem head_rot_eq (r A : Nat) (hh : HeadOk r A)
    (hpos : 0 < curSizeg r A + A % BUFFER_SIZE) : r = rotCount A := by
  obtain ⟨h1, h2, h3⟩ := hh
  simp only [HeadOk, curSizeg, flushedTot, rotCount, BUFFER_SIZE_eq,
    MAX_FILE_SIZE_eq, FLUSH_THRESHOLD_eq] at *
  omega

/-- A fresh head state (`A = 0`) satisfies the head conditions. -/
theorem HeadOk_zero : HeadOk 0 0 := by
  simp [HeadOk, curSizeg, flushedTot]

/-- The head conditions hold at every call boundary. -/
theorem HeadOk_E (A : Nat) : HeadOk (rotCount A) A := by
  simp only [HeadOk, curSizeg, flushedTot, rotCount, BUFFER_SIZE_eq,
    MAX_FILE_SIZE_eq]
  omega

/-- One full loop iteration (rotation check plus copy/flush) on an
expected head state. -/
theorem WriteIter_Eg (p : WP) (r A m : Nat) (hm : 0 < m) (w : World)
    (hw : WOkg p r A w) (hh : HeadOk r A) :
    ∃ r2 w2, WriteIter envAllOk m (Eg p r A) w =
      (true, m - min m (BUFFER_SIZE - A % BUFFER_SIZE),
        Eg p r2 (A + min m (BUFFER_SIZE - A % BUFFER_SIZE)), w2) ∧
      WOkg p r2 (A + min m (BUFFER_SIZE - A % BUFFER_SIZE)) w2 ∧
      HeadOk r2 (A + min m (BUFFER_SIZE - A % BUFFER_SIZE)) ∧
      0 < curSizeg r2 (A + min m (BUFFER_SIZE - A % BUFFER_SIZE)) +
        (A + min m (BUFFER_SIZE - A % BUFFER_SIZE)) % BUFFER_SIZE := by
  obtain ⟨hdisk, hcomp, hqueue⟩ := hw
  by_cases hrot : MAX_FILE_SIZE ≤ curSizeg r A
  · -- rotation: finalize the full current file, open the next one
    obtain ⟨hcM, hb0, hfA, hAe, hc1, hh1⟩ := rotation_facts r A hh hrot
    have hcur1 : curSizeg (r + 1) A < MAX_FILE_SIZE := by
      rw [hc1, MAX_FILE_SIZE_eq]
      omega
    obtain ⟨w2, hcalc, hwok⟩ := WriteIterCopy_Eg p (r + 1) A m hm
      ({ w with
        disk := expFinals p (r + 1) ++ [(tmpPathP p (r + 1), curSizeg (r + 1) A)]
        completedFiles := expNames p (r + 1)
        queueFile := expNames p (r + 1)
        trace := w.trace ++
          [Event.renamed (tmpPathP p r) (finalPathP p r) MAX_FILE_SIZE,
            Event.notified (finalNameP p r),
            Event.opened (tmpPathP p (r + 1))] })
      ⟨rfl, rfl, rfl⟩ (by rw [hfA, hAe, MAX_FILE_SIZE_eq]; omega) hcur1
    refine ⟨r + 1, w2, ?_, hwok,
      (HeadOk_step (r + 1) A m hm hh1 hcur1).1,
      (HeadOk_step (r + 1) A m hm hh1 hcur1).2⟩
    simp only [WriteIter]
    rw [if_pos (show MAX_FILE_SIZE ≤ (Eg p r A).mCurrentFileSize from hrot),
      CloseCurrentFile_rename_run _ _ rfl
        (show 0 < (Eg p r A).mCurrentFileSize by
          show 0 < curSizeg r A
          rw [hcM, MAX_FILE_SIZE_eq]
          omega)]
    simp only [Eg]
    rw [OpenNewFile_run]
    dsimp only
    refine (congrArg₂ (WriteIterCopy envAllOk m) ?_ ?_).trans hcalc
    · simp only [Eg, finalNameP, Dumper.mk.injEq, hb0, hc1, Nat.zero_mod,
        true_and, and_true]
      exact rfl
    · rw [hdisk, diskLookup_snoc (expFinals_key_ne_tmp p r r),
        diskRemove_snoc (expFinals_key_ne_tmp p r r)]
      simp only [Option.getD_some]
      rw [hcM,
        show p.dir ++ finalNameP p r = finalPathP p r from rfl,
        diskSet_fresh (expFinals_key_ne_final_ge p r r (le_refl r)),
        ← expFinals_succ,
        show p.dir ++ GenerateFilename p.ty p.ts p.ctr (r + 1) true =
          tmpPathP p (r + 1) from rfl,
        diskSet_fresh (expFinals_key_ne_tmp p (r + 1) (r + 1)),
        hcomp, hqueue, ← expNames_succ]
      simp [hc1, List.append_assoc]
  · -- no rotation: a plain copy/flush step
    have hcur : curSizeg r A < MAX_FILE_SIZE := by
      have h2 := hh.2.1
      omega
    obtain ⟨w2, hcalc, hwok⟩ :=
      WriteIterCopy_Eg p r A m hm w ⟨hdisk, hcomp, hqueue⟩ hh.1 hcur
    refine ⟨r, w2, ?_, hwok,
      (HeadOk_step r A m hm hh hcur).1, (HeadOk_step r A m hm hh hcur).2⟩
    simp only [WriteIter]
    rw [if_neg (show ¬ MAX_FILE_SIZE ≤ (Eg p r A).mCurrentFileSize from hrot)]
    exact hcalc

/-- The full `WriteData` loop takes an expected head state through all
`m` input bytes. -/
theorem WriteLoop_Eg (p : WP) : ∀ (fuel m r A : Nat), 0 < m → m ≤ fuel →
    ∀ w : World, WOkg p r A w → HeadOk r A →
    ∃ r2 w2, WriteLoop envAllOk fuel m (Eg p r A) w =
      (true, Eg p r2 (A + m), w2) ∧
      WOkg p r2 (A + m) w2 ∧ HeadOk r2 (A + m) ∧
      0 < curSizeg r2 (A + m) + (A + m) % BUFFER_SIZE := by
  intro fuel
  induction fuel with
  | zero =>
    intro m r A hm hle w hw hh
    omega
  | succ fuel ih =>
    intro m r A hm hle w hw hh
    obtain ⟨k, rfl⟩ : ∃ k, m = k + 1 := ⟨m - 1, by omega⟩
    obtain ⟨r2, w2, hiter, hwok2, hh2, hpos2⟩ :=
      WriteIter_Eg p r A (k + 1) (by omega) w hw hh
    have hc1 : 1 ≤ min (k + 1) (BUFFER_SIZE - A % BUFFER_SIZE) := by
      rw [BUFFER_SIZE_eq]
      omega
    have hck : min (k + 1) (BUFFER_SIZE - A % BUFFER_SIZE) ≤ k + 1 :=
      Nat.min_le_left _ _
    simp only [WriteLoop]
    rw [hiter]
    by_cases hend : k + 1 - min (k + 1) (BUFFER_SIZE - A % BUFFER_SIZE) = 0
    · rw [hend]
      have hcm : A + min (k + 1) (BUFFER_SIZE - A % BUFFER_SIZE) = A + (k + 1) := by
        omega
      rw [hcm] at hwok2 hh2 hpos2 ⊢
      exact ⟨r2, w2, by simp [WriteLoop], hwok2, hh2, hpos2⟩
    · obtain ⟨r3, w3, hloop, hwok3, hh3, hpos3⟩ :=
        ih (k + 1 - min (k + 1) (BUFFER_SIZE - A % BUFFER_SIZE)) r2
          (A + min (k + 1) (BUFFER_SIZE - A % BUFFER_SIZE))
          (by omega) (by omega) w2 hwok2 hh2
      have hsum : A + min (k + 1) (BUFFER_SIZE - A % BUFFER_SIZE) +
          (k + 1 - min (k + 1) (BUFFER_SIZE - A % BUFFER_SIZE)) = A + (k + 1) := by
        omega
      rw [hsum] at hloop hwok3 hh3 hpos3
      exact ⟨r3, w3, hloop, hwok3, hh3, hpos3⟩

/-- `WriteData` on an expected call-boundary state accepts all `sz`
bytes and advances the expected state and world. -/
theorem WriteData_E (p : WP) (A sz : Nat) (hsz : 0 < sz) (w : World)
    (hw : WOkAt p A w) :
    ∃ w2, WriteData envAllOk false sz (E p A) w =
      ((sz : Int), E p (A + sz), w2) ∧ WOkAt p (A + sz) w2 := by
  obtain ⟨r2, w2, hloop, hwok2, hh2, hpos2⟩ :=
    WriteLoop_Eg p sz sz (rotCount A) A hsz (le_refl sz) w hw (HeadOk_E A)
  have hr2 : r2 = rotCount (A + sz) := head_rot_eq r2 (A + sz) hh2 hpos2
  subst hr2
  refine ⟨w2, ?_, hwok2⟩
  unfold WriteData
  rw [if_neg (by
    show ¬ (!(Eg p (rotCount A) A).mIsValid || false || (sz == 0)) = true
    simp only [Eg]
    simp [Nat.pos_iff_ne_zero.mp hsz])]
  rw [show WriteLoop envAllOk sz sz (E p A) w =
    WriteLoop envAllOk sz sz (Eg p (rotCount A) A) w from rfl, hloop]
  rfl

/-- The world right after a writer is constructed from `emptyWorld`
under `envAllOk`: one empty temp file on disk, one `opened` event. -/
def mkWorld0 (p : WP) : World :=
  { disk := [(tmpPathP p 0, 0)]
    completedFiles := []
    queueFile := []
    initialized := false
    fileCounter := 0
    trace := [Event.opened (tmpPathP p 0)] }

/-- Constructing a writer from the empty world yields the expected
zero-byte call-boundary state. -/
theorem mk_E_eq (p : WP) :
    mkStreamDumper envAllOk p.ty p.dir p.ts p.ctr emptyWorld =
      (E p 0, mkWorld0 p) := by
  simp only [mkStreamDumper]
  rw [OpenNewFile_run]
  simp only [E, Eg, emptyWorld, mkWorld0, diskSet, curSizeg, flushedTot,
    rotCount, finalNameP, tmpPathP, Prod.mk.injEq, Dumper.mk.injEq,
    World.mk.injEq]
  norm_num

theorem WOkAt_mkWorld0 (p : WP) : WOkAt p 0 (mkWorld0 p) := by
  refine ⟨?_, rfl, rfl⟩
  simp [mkWorld0, expFinals, rotCount, curSizeg, flushedTot]

/-- Run a sequence of `WriteData` calls (discarding return codes, as the
integration call sites do). -/
def writeAll (env : Env) : List Nat → Dumper × World → Dumper × World
  | [], sw => sw
  | sz :: rest, sw => writeAll env rest (WriteData env false sz sw.1 sw.2).2

/-- A sequence of positive-size writes advances the expected state by
the sum of the sizes. -/
theorem writeAll_E (p : WP) : ∀ (sizes : List Nat) (A : Nat) (w : World),
    (∀ x ∈ sizes, 0 < x) → WOkAt p A w →
    ∃ w2, writeAll envAllOk sizes (E p A, w) = (E p (A + sizes.sum), w2) ∧
      WOkAt p (A + sizes.sum) w2 := by
  intro sizes
  induction sizes with
  | nil =>
    intro A w _ hw
    exact ⟨w, by simp [writeAll], by simpa using hw⟩
  | cons sz rest ih =>
    intro A w hpos hw
    obtain ⟨w1, hstep, hw1⟩ := WriteData_E p A sz (hpos sz (by simp)) w hw
    obtain ⟨w2, hrest, hw2⟩ := ih (A + sz) w1
      (fun x hx => hpos x (by simp [hx])) hw1
    refine ⟨w2, ?_, ?_⟩
    · show writeAll envAllOk rest
        (WriteData envAllOk false sz (E p A) w).2 = _
      rw [hstep]
      show writeAll envAllOk rest (E p (A + sz), w1) = _
      rw [hrest]
      have : A + sz + rest.sum = A + (sz :: rest).sum := by
        simp [List.sum_cons]
        omega
      rw [this]
    · have : A + sz + rest.sum = A + (sz :: rest).sum := by
        simp [List.sum_cons]
        omega
      rw [← this]
      exact hw2

/-- `ForceClose` on an expected state with at least one accepted byte
flushes the tail of the buffer and finalizes the current file, which
then holds all bytes accepted since the last rotation. -/
theorem ForceClose_E (p : WP) (A : Nat) (hA : 0 < A) (w : World)
    (hw : WOkAt p A w) :
    ∃ tr, ForceClose envAllOk (E p A) w =
      ({ E p A with
          mFileOpen := false
          mCurrentFilePath := ""
          mBufferOffset := 0
          mCurrentFileSize := A - rotCount A * MAX_FILE_SIZE
          mTotalBytesWritten := A
          mIsValid := false },
        { w with
          disk := expFinals p (rotCount A) ++
            [(finalPathP p (rotCount A), A - rotCount A * MAX_FILE_SIZE)]
          completedFiles := expNames p (rotCount A) ++ [finalNameP p (rotCount A)]
          queueFile := expNames p (rotCount A) ++ [finalNameP p (rotCount A)]
          trace := tr }) := by
  obtain ⟨hdisk, hcomp, hqueue⟩ := hw
  have hrm : rotCount A * MAX_FILE_SIZE ≤ flushedTot A ∧
      flushedTot A + A % BUFFER_SIZE = A ∧
      1 ≤ A - rotCount A * MAX_FILE_SIZE := by
    simp only [flushedTot, rotCount, BUFFER_SIZE_eq, MAX_FILE_SIZE_eq]
    omega
  by_cases hoff : 0 < A % BUFFER_SIZE
  · -- buffered bytes remain: ForceClose writes them out first
    refine ⟨w.trace ++
      [Event.wrote (tmpPathP p (rotCount A)) (A % BUFFER_SIZE),
        Event.renamed (tmpPathP p (rotCount A)) (finalPathP p (rotCount A))
          (A - rotCount A * MAX_FILE_SIZE),
        Event.notified (finalNameP p (rotCount A))], ?_⟩
    simp only [ForceClose, E, Eg, if_true]
    rw [if_pos hoff]
    rw [CloseCurrentFile_rename_run]
    · dsimp only
      rw [hdisk]
      rw [diskLookup_snoc (expFinals_key_ne_tmp p (rotCount A) (rotCount A)),
        diskSet_snoc (expFinals_key_ne_tmp p (rotCount A) (rotCount A))]
      simp only [Option.getD_some]
      rw [diskLookup_snoc (expFinals_key_ne_tmp p (rotCount A) (rotCount A)),
        diskRemove_snoc (expFinals_key_ne_tmp p (rotCount A) (rotCount A))]
      simp only [Option.getD_some]
      rw [show p.dir ++ finalNameP p (rotCount A) = finalPathP p (rotCount A)
          from rfl,
        diskSet_fresh (expFinals_key_ne_final_ge p (rotCount A) (rotCount A)
          (le_refl _)),
        hcomp, hqueue]
      have hval : curSizeg (rotCount A) A + A % BUFFER_SIZE =
          A - rotCount A * MAX_FILE_SIZE := by
        simp only [curSizeg]
        omega
      rw [hval]
      simp only [Prod.mk.injEq, Dumper.mk.injEq, World.mk.injEq, true_and,
        and_true, List.append_assoc, List.cons_append, List.nil_append]
      exact hrm.2.1
    · rfl
    · show 0 < curSizeg (rotCount A) A + A % BUFFER_SIZE
      omega
  · -- empty buffer: the current file already holds everything
    refine ⟨w.trace ++
      [Event.renamed (tmpPathP p (rotCount A)) (finalPathP p (rotCount A))
          (A - rotCount A * MAX_FILE_SIZE),
        Event.notified (finalNameP p (rotCount A))], ?_⟩
    simp only [ForceClose, E, Eg, if_true]
    rw [if_neg hoff]
    rw [CloseCurrentFile_rename_run]
    · dsimp only
      rw [hdisk]
      rw [diskLookup_snoc (expFinals_key_ne_tmp p (rotCount A) (rotCount A)),
        diskRemove_snoc (expFinals_key_ne_tmp p (rotCount A) (rotCount A))]
      simp only [Option.getD_some]
      rw [show p.dir ++ finalNameP p (rotCount A) = finalPathP p (rotCount A)
          from rfl,
        diskSet_fresh (expFinals_key_ne_final_ge p (rotCount A) (rotCount A)
          (le_refl _)),
        hcomp, hqueue]
      have hval : curSizeg (rotCount A) A = A - rotCount A * MAX_FILE_SIZE := by
        simp only [curSizeg]
        omega
      rw [hval]
      simp only [Prod.mk.injEq, Dumper.mk.injEq, World.mk.injEq, true_and,
        and_true, List.append_assoc, List.cons_append, List.nil_append]
      have hb0 : A % BUFFER_SIZE = 0 := by omega
      refine ⟨hb0, ?_⟩
      simp only [flushedTot, hb0]
      omega
    · rfl
    · show 0 < curSizeg (rotCount A) A
      simp only [curSizeg]
      omega

/-- `StreamDumper::GetTotalBytesWritten`. -/
def GetTotalBytesWritten (s : Dumper) : Nat := s.mTotalBytesWritten

/-- `StreamDumper::GetCurrentFileSize`. -/
def GetCurrentFileSize (s : Dumper) : Nat := s.mCurrentFileSize

/-- `StreamDumper::GetFileCount`. -/
def GetFileCount (s : Dumper) : Nat := s.mFileCount

/-- `StreamDumper::IsValid`. -/
def IsValid (s : Dumper) : Bool := s.mIsValid

/-- A concrete writer-parameter bundle for witness instantiations. -/
def sampleWP : WP :=
  { ty := AudioStreamType.STREAM_OUT
    dir := DEFAULT_DUMP_DIR
    ts := "19700101_000000"
    ctr := 0 }

theorem setInvalid_eq (d : Dumper) (hv : d.mIsValid = false) :
    { d with mIsValid := false } = d := by
  cases d
  simp only at hv
  rw [hv]

theorem close_not_open (env : Env) (c : Bool) (s : Dumper) (w : World)
    (h : s.mFileOpen = true) :
    ((CloseCurrentFile env c s w).1).mFileOpen = false := by
  simp only [CloseCurrentFile]
  rw [if_pos h]
  split
  · split
    · rfl
    · rfl
  · rfl

theorem ForceClose_fst_invalid (env : Env) (s : Dumper) (w : World) :
    ((ForceClose env s w).1).mIsValid = false := rfl

theorem ForceClose_fst_not_open (env : Env) (s : Dumper) (w : World) :
    ((ForceClose env s w).1).mFileOpen = false := by
  simp only [ForceClose]
  by_cases h : s.mFileOpen = true
  · rw [if_pos h]
    show ((CloseCurrentFile env true _ _).1).mFileOpen = false
    apply close_not_open
    split
    · exact h
    · exact h
  · rw [if_neg h]
    show s.mFileOpen = false
    simpa using h

theorem ForceClose_noop (env : Env) (d : Dumper) (w : World)
    (ho : d.mFileOpen = false) (hv : d.mIsValid = false) :
    ForceClose env d w = (d, w) := by
  simp only [ForceClose]
  rw [if_neg (by simp [ho])]
  rw [setInvalid_eq d hv]

/-- Claim C5: calling `ForceClose` on a freshly constructed writer with
no intervening `Write` calls leaves no final-named file and no temp file
on disk, triggers no coordinator notification and nothing in the queue
file: the zero-byte temp file is deleted outright, never promoted or
reported. -/
theorem claim_C5_zero_byte_abort (p : WP) :
    (ForceClose envAllOk
      (mkStreamDumper envAllOk p.ty p.dir p.ts p.ctr emptyWorld).1
      (mkStreamDumper envAllOk p.ty p.dir p.ts p.ctr emptyWorld).2).2.disk = [] ∧
    (ForceClose envAllOk
      (mkStreamDumper envAllOk p.ty p.dir p.ts p.ctr emptyWorld).1
      (mkStreamDumper envAllOk p.ty p.dir p.ts p.ctr emptyWorld).2).2.completedFiles = [] ∧
    (ForceClose envAllOk
      (mkStreamDumper envAllOk p.ty p.dir p.ts p.ctr emptyWorld).1
      (mkStreamDumper envAllOk p.ty p.dir p.ts p.ctr emptyWorld).2).2.queueFile = [] ∧
    (∀ n, Event.notified n ∉ (ForceClose envAllOk
      (mkStreamDumper envAllOk p.ty p.dir p.ts p.ctr emptyWorld).1
      (mkStreamDumper envAllOk p.ty p.dir p.ts p.ctr emptyWorld).2).2.trace) ∧
    IsValid (ForceClose envAllOk
      (mkStreamDumper envAllOk p.ty p.dir p.ts p.ctr emptyWorld).1
      (mkStreamDumper envAllOk p.ty p.dir p.ts p.ctr emptyWorld).2).1 = false := by
  rw [mk_E_eq]
  have hfc : ForceClose envAllOk (E p 0, mkWorld0 p).1 (E p 0, mkWorld0 p).2 =
      ({ E p 0 with mFileOpen := false, mCurrentFilePath := "", mIsValid := false },
        { mkWorld0 p with
          disk := []
          trace := [Event.opened (tmpPathP p 0), Event.unlinked (tmpPathP p 0)] }) := by
    show ForceClose envAllOk (E p 0) (mkWorld0 p) = _
    simp only [ForceClose, E, Eg, if_true]
    rw [if_neg (by simp)]
    rw [CloseCurrentFile_unlink_run]
    · simp [mkWorld0, diskRemove]
      exact ⟨rfl, rfl⟩
    · rfl
    · show curSizeg (rotCount 0) 0 = 0
      simp [curSizeg, flushedTot, rotCount]
  rw [hfc]
  refine ⟨rfl, rfl, rfl, ?_, rfl⟩
  intro n
  simp [mkWorld0]

/-- Claim C6: `ForceClose` is idempotent: for every writer state and
world, a second `ForceClose` changes nothing (the second call finds no
open file and is a no-op apart from re-clearing `mIsValid`, already
false). -/
theorem claim_C6_forceclose_idempotent (env : Env) (s : Dumper) (w : World) :
    ForceClose env (ForceClose env s w).1 (ForceClose env s w).2 =
      ForceClose env s w := by
  rw [ForceClose_noop env _ _ (ForceClose_fst_not_open env s w)
    (ForceClose_fst_invalid env s w)]

/-- Claim C8: when the dump switch for the requested stream kind reads
false, `CreateStreamDumper` returns null and performs no side effect at
all: the world (disk, coordinator state, counter, trace) is returned
unchanged, with no directory bootstrap and no counter allocation. -/
theorem claim_C8_disabled_switch (env : Env) (ty : AudioStreamType)
    (w : World)
    (h : (match ty with
      | AudioStreamType.STREAM_OUT => IsStreamOutDumpEnabled env
      | AudioStreamType.STREAM_IN => IsStreamInDumpEnabled env) = false) :
    CreateStreamDumper env ty w = (none, w) := by
  cases ty <;> simp only at h <;> simp [CreateStreamDumper, h]

/-- The environment in which both dump switches read off. -/
def envSwitchOff : Env :=
  { envAllOk with streamoutProp := "0", streaminProp := "0" }

/-- Witness for claim C8 at a concrete environment and world. -/
theorem claim_C8_disabled_switch_witness :
    CreateStreamDumper envSwitchOff AudioStreamType.STREAM_OUT emptyWorld =
      (none, emptyWorld) :=
  claim_C8_disabled_switch envSwitchOff AudioStreamType.STREAM_OUT emptyWorld
    (by decide)

/-- Claim C9: with the switch on and directory bootstrap succeeding but
every file open failing, `CreateStreamDumper` still returns a writer
(not null); that writer reports not-valid from construction and every
`WriteData` call on it returns `-1` without changing any state. -/
theorem claim_C9_invalid_writer (env : Env) (ty : AudioStreamType)
    (w : World)
    (hsw : (match ty with
      | AudioStreamType.STREAM_OUT => IsStreamOutDumpEnabled env
      | AudioStreamType.STREAM_IN => IsStreamInDumpEnabled env) = true)
    (hdir : env.dirOk = true)
    (hopen : ∀ n, env.openOk n = false) :
    ∃ d, (CreateStreamDumper env ty w).1 = some d ∧
      IsValid d = false ∧ GetFileCount d = 0 ∧
      ∀ (env2 : Env) (bn : Bool) (sz : Nat) (w2 : World),
        WriteData env2 bn sz d w2 = (-1, d, w2) := by
  simp only [CreateStreamDumper, mkStreamDumper, OpenNewFile, hopen,
    Bool.false_eq_true, if_false]
  cases ty <;> simp only at hsw <;> rw [hsw] <;> simp only [if_true]
  all_goals {
    by_cases hinit : w.initialized = true
    · rw [if_pos hinit]
      exact ⟨_, rfl, rfl, rfl, fun env2 bn sz w2 => rfl⟩
    · rw [if_neg hinit]
      simp only [ManagerInitialize]
      rw [if_neg hinit, if_pos hdir]
      exact ⟨_, rfl, rfl, rfl, fun env2 bn sz w2 => rfl⟩
  }

/-- The environment with switches on, directory bootstrap succeeding and
every file open failing. -/
def envOpenFails : Env :=
  { envAllOk with openOk := fun _ => false }

/-- Witness for claim C9 at a concrete environment and world. -/
theorem claim_C9_invalid_writer_witness :
    ∃ d, (CreateStreamDumper envOpenFails AudioStreamType.STREAM_OUT
        emptyWorld).1 = some d ∧
      IsValid d = false ∧ GetFileCount d = 0 ∧
      ∀ (env2 : Env) (bn : Bool) (sz : Nat) (w2 : World),
        WriteData env2 bn sz d w2 = (-1, d, w2) :=
  claim_C9_invalid_writer envOpenFails AudioStreamType.STREAM_OUT emptyWorld
    (by decide) rfl (fun _ => rfl)

/-- Claim C10: `WriteData` with a null data pointer or with size zero
returns `-1` immediately and leaves the writer state and the world
entirely unchanged. -/
theorem claim_C10_null_or_zero_write (env : Env) (bn : Bool) (sz : Nat)
    (s : Dumper) (w : World) (h : bn = true ∨ sz = 0) :
    WriteData env bn sz s w = (-1, s, w) := by
  unfold WriteData
  rw [if_pos (by rcases h with h | h <;> simp [h])]

/-- Witness for claim C10: a null-pointer write and a zero-size write on
a concrete writer state. -/
theorem claim_C10_null_or_zero_write_witness :
    WriteData envAllOk true 5 (E sampleWP 0) emptyWorld =
      (-1, E sampleWP 0, emptyWorld) ∧
    WriteData envAllOk false 0 (E sampleWP 0) emptyWorld =
      (-1, E sampleWP 0, emptyWorld) :=
  ⟨claim_C10_null_or_zero_write envAllOk true 5 (E sampleWP 0) emptyWorld
      (Or.inl rfl),
    claim_C10_null_or_zero_write envAllOk false 0 (E sampleWP 0) emptyWorld
      (Or.inr rfl)⟩

/-- Claim C2: writing `MAX_FILE_SIZE + 1` total bytes, in one or many
positive-size writes with no failures, followed by `ForceClose`,
produces exactly two finalized files on disk — file index 0 with exactly
`MAX_FILE_SIZE` bytes and file index 1 with a single byte — whose sizes
together equal `total_bytes_written = MAX_FILE_SIZE + 1`: no byte is
lost or duplicated at the rotation boundary and the file indices
strictly increase. -/
theorem claim_C2_rotation_boundary (p : WP) (sizes : List Nat)
    (hpos : ∀ x ∈ sizes, 0 < x) (hsum : sizes.sum = MAX_FILE_SIZE + 1) :
    (ForceClose envAllOk
      (writeAll envAllOk sizes
        (mkStreamDumper envAllOk p.ty p.dir p.ts p.ctr emptyWorld)).1
      (writeAll envAllOk sizes
        (mkStreamDumper envAllOk p.ty p.dir p.ts p.ctr emptyWorld)).2).2.disk =
      [(finalPathP p 0, MAX_FILE_SIZE), (finalPathP p 1, 1)] ∧
    (ForceClose envAllOk
      (writeAll envAllOk sizes
        (mkStreamDumper envAllOk p.ty p.dir p.ts p.ctr emptyWorld)).1
      (writeAll envAllOk sizes
        (mkStreamDumper envAllOk p.ty p.dir p.ts p.ctr emptyWorld)).2).2.completedFiles =
      [finalNameP p 0, finalNameP p 1] ∧
    GetTotalBytesWritten (ForceClose envAllOk
      (writeAll envAllOk sizes
        (mkStreamDumper envAllOk p.ty p.dir p.ts p.ctr emptyWorld)).1
      (writeAll envAllOk sizes
        (mkStreamDumper envAllOk p.ty p.dir p.ts p.ctr emptyWorld)).2).1 =
      MAX_FILE_SIZE + 1 := by
  rw [mk_E_eq]
  obtain ⟨w2, hwr, hw2⟩ := writeAll_E p sizes 0 (mkWorld0 p) hpos
    (WOkAt_mkWorld0 p)
  have hA : 0 + sizes.sum = MAX_FILE_SIZE + 1 := by

    rw [hsum]
    omega
  rw [hA] at hwr hw2
  obtain ⟨tr, hfc⟩ := ForceClose_E p (MAX_FILE_SIZE + 1) (by omega) w2 hw2
  have hrot : rotCount (MAX_FILE_SIZE + 1) = 1 := by decide
  have hone : MAX_FILE_SIZE + 1 - rotCount (MAX_FILE_SIZE + 1) * MAX_FILE_SIZE
      = 1 := by decide
  rw [hwr]
  dsimp only
  rw [hfc, hone, hrot]
  refine ⟨?_, ?_, rfl⟩
  · simp [expFinals, List.range_succ]
  · simp [expNames, List.range_succ]

/-- Witness for claim C2: the whole `MAX_FILE_SIZE + 1` payload in one
single write call. -/
theorem claim_C2_rotation_boundary_witness :
    (ForceClose envAllOk
      (writeAll envAllOk [MAX_FILE_SIZE + 1]
        (mkStreamDumper envAllOk sampleWP.ty sampleWP.dir sampleWP.ts
          sampleWP.ctr emptyWorld)).1
      (writeAll envAllOk [MAX_FILE_SIZE + 1]
        (mkStreamDumper envAllOk sampleWP.ty sampleWP.dir sampleWP.ts
          sampleWP.ctr emptyWorld)).2).2.disk =
      [(finalPathP sampleWP 0, MAX_FILE_SIZE), (finalPathP sampleWP 1, 1)] ∧
    (ForceClose envAllOk
      (writeAll envAllOk [MAX_FILE_SIZE + 1]
        (mkStreamDumper envAllOk sampleWP.ty sampleWP.dir sampleWP.ts
          sampleWP.ctr emptyWorld)).1
      (writeAll envAllOk [MAX_FILE_SIZE + 1]
        (mkStreamDumper envAllOk sampleWP.ty sampleWP.dir sampleWP.ts
          sampleWP.ctr emptyWorld)).2).2.completedFiles =
      [finalNameP sampleWP 0, finalNameP sampleWP 1] ∧
    GetTotalBytesWritten (ForceClose envAllOk
      (writeAll envAllOk [MAX_FILE_SIZE + 1]
        (mkStreamDumper envAllOk sampleWP.ty sampleWP.dir sampleWP.ts
          sampleWP.ctr emptyWorld)).1
      (writeAll envAllOk [MAX_FILE_SIZE + 1]
        (mkStreamDumper envAllOk sampleWP.ty sampleWP.dir sampleWP.ts
          sampleWP.ctr emptyWorld)).2).1 = MAX_FILE_SIZE + 1 :=
  claim_C2_rotation_boundary sampleWP [MAX_FILE_SIZE + 1]
    (by decide) (by decide)

/-- Counterexample to claim C3 as stated: a single successful 1-byte
write from a fresh writer leaves `total_bytes_written` at 0 (the byte
sits in the internal buffer, not yet flushed), not at `Σsi = 1`. -/
theorem claim_C3_counterexample :
    GetTotalBytesWritten (writeAll envAllOk [1]
      (mkStreamDumper envAllOk sampleWP.ty sampleWP.dir sampleWP.ts
        sampleWP.ctr emptyWorld)).1 ≠ List.sum [1] := by
  rw [mk_E_eq]
  obtain ⟨w2, hwr, hw2⟩ := writeAll_E sampleWP [1] 0 (mkWorld0 sampleWP)
    (by decide) (WOkAt_mkWorld0 sampleWP)
  rw [hwr]
  dsimp only
  simp only [GetTotalBytesWritten, E, Eg, flushedTot]
  decide

/-- Claim C3 (amended): after N successful writes of sizes `s1..sn` from
a fresh writer (no failures), `total_bytes_written` plus the bytes still
sitting in the internal buffer equals `Σsi`; `total_bytes_written`
itself equals `Σsi - Σsi % BUFFER_SIZE` (only whole flushed buffers are
counted), and it equals `Σsi` exactly after `ForceClose` flushes the
tail. -/
theorem claim_C3_flushed_total (p : WP) (sizes : List Nat)
    (hpos : ∀ x ∈ sizes, 0 < x) :
    GetTotalBytesWritten (writeAll envAllOk sizes
        (mkStreamDumper envAllOk p.ty p.dir p.ts p.ctr emptyWorld)).1 +
      ((writeAll envAllOk sizes
        (mkStreamDumper envAllOk p.ty p.dir p.ts p.ctr emptyWorld)).1).mBufferOffset =
      sizes.sum ∧
    GetTotalBytesWritten (writeAll envAllOk sizes
        (mkStreamDumper envAllOk p.ty p.dir p.ts p.ctr emptyWorld)).1 =
      sizes.sum - sizes.sum % BUFFER_SIZE ∧
    (0 < sizes.sum →
      GetTotalBytesWritten (ForceClose envAllOk
        (writeAll envAllOk sizes
          (mkStreamDumper envAllOk p.ty p.dir p.ts p.ctr emptyWorld)).1
        (writeAll envAllOk sizes
          (mkStreamDumper envAllOk p.ty p.dir p.ts p.ctr emptyWorld)).2).1 =
      sizes.sum) := by
  rw [mk_E_eq]
  obtain ⟨w2, hwr, hw2⟩ := writeAll_E p sizes 0 (mkWorld0 p) hpos
    (WOkAt_mkWorld0 p)
  have hz : 0 + sizes.sum = sizes.sum := by omega
  rw [hz] at hwr hw2
  rw [hwr]
  refine ⟨?_, ?_, ?_⟩
  · simp only [GetTotalBytesWritten, E, Eg, flushedTot, BUFFER_SIZE_eq]
    omega
  · simp only [GetTotalBytesWritten, E, Eg, flushedTot, BUFFER_SIZE_eq]
  · intro hpos2
    obtain ⟨tr, hfc⟩ := ForceClose_E p sizes.sum hpos2 w2 hw2
    dsimp only
    rw [hfc]
    rfl

/-- Witness for claim C3's amended statement: two writes of 1 byte and
`BUFFER_SIZE` bytes. -/
theorem claim_C3_flushed_total_witness :
    GetTotalBytesWritten (writeAll envAllOk [1, BUFFER_SIZE]
        (mkStreamDumper envAllOk sampleWP.ty sampleWP.dir sampleWP.ts
          sampleWP.ctr emptyWorld)).1 +
      ((writeAll envAllOk [1, BUFFER_SIZE]
        (mkStreamDumper envAllOk sampleWP.ty sampleWP.dir sampleWP.ts
          sampleWP.ctr emptyWorld)).1).mBufferOffset = [1, BUFFER_SIZE].sum ∧
    GetTotalBytesWritten (writeAll envAllOk [1, BUFFER_SIZE]
        (mkStreamDumper envAllOk sampleWP.ty sampleWP.dir sampleWP.ts
          sampleWP.ctr emptyWorld)).1 =
      [1, BUFFER_SIZE].sum - [1, BUFFER_SIZE].sum % BUFFER_SIZE ∧
    (0 < [1, BUFFER_SIZE].sum →
      GetTotalBytesWritten (ForceClose envAllOk
        (writeAll envAllOk [1, BUFFER_SIZE]
          (mkStreamDumper envAllOk sampleWP.ty sampleWP.dir sampleWP.ts
            sampleWP.ctr emptyWorld)).1
        (writeAll envAllOk [1, BUFFER_SIZE]
          (mkStreamDumper envAllOk sampleWP.ty sampleWP.dir sampleWP.ts
            sampleWP.ctr emptyWorld)).2).1 = [1, BUFFER_SIZE].sum) :=
  claim_C3_flushed_total sampleWP [1, BUFFER_SIZE] (by decide)

/-- Counterexample to claim C4 as stated: after the second 40 MiB chunk
the writer has accepted only 80 MiB, below the 100 MiB threshold — no
file has been finalized, nothing was reported to the coordinator, and
the writer is still on its first file. -/
theorem claim_C4_counterexample :
    (writeAll envAllOk [41943040, 41943040]
      (mkStreamDumper envAllOk sampleWP.ty sampleWP.dir sampleWP.ts
        sampleWP.ctr emptyWorld)).2.completedFiles = [] ∧
    GetFileCount (writeAll envAllOk [41943040, 41943040]
      (mkStreamDumper envAllOk sampleWP.ty sampleWP.dir sampleWP.ts
        sampleWP.ctr emptyWorld)).1 = 1 := by
  rw [mk_E_eq]
  obtain ⟨w2, hwr, hw2⟩ := writeAll_E sampleWP [41943040, 41943040] 0
    (mkWorld0 sampleWP) (by decide) (WOkAt_mkWorld0 sampleWP)
  rw [hwr]
  obtain ⟨hdisk, hcomp, hqueue⟩ := hw2
  have hr2 : rotCount (0 + [41943040, 41943040].sum) = 0 := by decide
  refine ⟨?_, ?_⟩
  · rw [hcomp, hr2]
    simp [expNames]
  · show GetFileCount (E sampleWP (0 + [41943040, 41943040].sum)) = 1
    simp only [GetFileCount, E, Eg, hr2]

theorem rot_two_chunks : rotCount (0 + [41943040, 41943040].sum) = 0 := by
  decide

theorem rot_three_chunks : rotCount (0 + [41943040, 41943040, 41943040].sum) = 1 := by
  decide

theorem cur_three_chunks :
    curSizeg (rotCount (0 + [41943040, 41943040, 41943040].sum))
      (0 + [41943040, 41943040, 41943040].sum) = 20971520 := by
  decide

theorem rem_three_chunks :
    0 + [41943040, 41943040, 41943040].sum -
      rotCount (0 + [41943040, 41943040, 41943040].sum) * MAX_FILE_SIZE =
      20971520 := by
  decide

theorem pos_two_chunks : ∀ x ∈ [41943040, 41943040], 0 < x := by
  decide

theorem pos_three_chunks : ∀ x ∈ [41943040, 41943040, 41943040], 0 < x := by
  decide

theorem sum_three_chunks_pos : 0 < 0 + [41943040, 41943040, 41943040].sum := by
  decide


theorem auxC4a (p : WP) :
    (writeAll envAllOk [41943040, 41943040]
      (mkStreamDumper envAllOk p.ty p.dir p.ts p.ctr emptyWorld)).2.completedFiles
      = [] := by
  rw [mk_E_eq]
  obtain ⟨w2, hwr2, hw2⟩ := writeAll_E p [41943040, 41943040] 0 (mkWorld0 p)
    pos_two_chunks (WOkAt_mkWorld0 p)
  obtain ⟨hd2, hc2, hq2⟩ := hw2
  rw [hwr2, hc2, rot_two_chunks]
  simp [expNames]

theorem auxC4b (p : WP) :
    GetFileCount (writeAll envAllOk [41943040, 41943040]
      (mkStreamDumper envAllOk p.ty p.dir p.ts p.ctr emptyWorld)).1 = 1 := by
  rw [mk_E_eq]
  obtain ⟨w2, hwr2, hw2⟩ := writeAll_E p [41943040, 41943040] 0 (mkWorld0 p)
    pos_two_chunks (WOkAt_mkWorld0 p)
  rw [hwr2]
  show GetFileCount (E p (0 + [41943040, 41943040].sum)) = 1
  simp only [GetFileCount, E, Eg, rot_two_chunks]

theorem auxC4c (p : WP) :
    (writeAll envAllOk [41943040, 41943040, 41943040]
      (mkStreamDumper envAllOk p.ty p.dir p.ts p.ctr emptyWorld)).2.completedFiles
      = [finalNameP p 0] := by
  rw [mk_E_eq]
  obtain ⟨w3, hwr3, hw3⟩ := writeAll_E p [41943040, 41943040, 41943040] 0
    (mkWorld0 p) pos_three_chunks (WOkAt_mkWorld0 p)
  obtain ⟨hd3, hc3, hq3⟩ := hw3
  rw [hwr3, hc3, rot_three_chunks]
  simp [expNames, List.range_succ]

theorem auxC4d (p : WP) :
    (writeAll envAllOk [41943040, 41943040, 41943040]
      (mkStreamDumper envAllOk p.ty p.dir p.ts p.ctr emptyWorld)).2.disk =
      [(finalPathP p 0, MAX_FILE_SIZE), (tmpPathP p 1, 20971520)] := by
  rw [mk_E_eq]
  obtain ⟨w3, hwr3, hw3⟩ := writeAll_E p [41943040, 41943040, 41943040] 0
    (mkWorld0 p) pos_three_chunks (WOkAt_mkWorld0 p)
  obtain ⟨hd3, hc3, hq3⟩ := hw3
  rw [hwr3, hd3, cur_three_chunks, rot_three_chunks]
  simp [expFinals, List.range_succ]

theorem auxC4e (p : WP) :
    GetFileCount (writeAll envAllOk [41943040, 41943040, 41943040]
      (mkStreamDumper envAllOk p.ty p.dir p.ts p.ctr emptyWorld)).1 = 2 := by
  rw [mk_E_eq]
  obtain ⟨w3, hwr3, hw3⟩ := writeAll_E p [41943040, 41943040, 41943040] 0
    (mkWorld0 p) pos_three_chunks (WOkAt_mkWorld0 p)
  rw [hwr3]
  show GetFileCount (E p (0 + [41943040, 41943040, 41943040].sum)) = 2
  simp only [GetFileCount, E, Eg, rot_three_chunks]

theorem auxC4f (p : WP) :
    GetCurrentFileSize (writeAll envAllOk [41943040, 41943040, 41943040]
      (mkStreamDumper envAllOk p.ty p.dir p.ts p.ctr emptyWorld)).1 = 20971520 := by
  rw [mk_E_eq]
  obtain ⟨w3, hwr3, hw3⟩ := writeAll_E p [41943040, 41943040, 41943040] 0
    (mkWorld0 p) pos_three_chunks (WOkAt_mkWorld0 p)
  rw [hwr3]
  have hg : ∀ A : Nat, GetCurrentFileSize (E p A) = curSizeg (rotCount A) A :=
    fun A => rfl
  rw [hg]
  exact cur_three_chunks

theorem auxC4g (p : WP) :
    (ForceClose envAllOk
      (writeAll envAllOk [41943040, 41943040, 41943040]
        (mkStreamDumper envAllOk p.ty p.dir p.ts p.ctr emptyWorld)).1
      (writeAll envAllOk [41943040, 41943040, 41943040]
        (mkStreamDumper envAllOk p.ty p.dir p.ts p.ctr emptyWorld)).2).2.disk =
      [(finalPathP p 0, MAX_FILE_SIZE), (finalPathP p 1, 20971520)] := by
  rw [mk_E_eq]
  obtain ⟨w3, hwr3, hw3⟩ := writeAll_E p [41943040, 41943040, 41943040] 0
    (mkWorld0 p) pos_three_chunks (WOkAt_mkWorld0 p)
  obtain ⟨tr, hfc⟩ := ForceClose_E p (0 + [41943040, 41943040, 41943040].sum)
    sum_three_chunks_pos w3 hw3
  rw [hwr3]
  dsimp only
  rw [hfc, rem_three_chunks, rot_three_chunks]
  simp [expFinals, List.range_succ]

theorem auxC4h (p : WP) :
    (ForceClose envAllOk
      (writeAll envAllOk [41943040, 41943040, 41943040]
        (mkStreamDumper envAllOk p.ty p.dir p.ts p.ctr emptyWorld)).1
      (writeAll envAllOk [41943040, 41943040, 41943040]
        (mkStreamDumper envAllOk p.ty p.dir p.ts p.ctr emptyWorld)).2).2.completedFiles =
      [finalNameP p 0, finalNameP p 1] := by
  rw [mk_E_eq]
  obtain ⟨w3, hwr3, hw3⟩ := writeAll_E p [41943040, 41943040, 41943040] 0
    (mkWorld0 p) pos_three_chunks (WOkAt_mkWorld0 p)
  obtain ⟨tr, hfc⟩ := ForceClose_E p (0 + [41943040, 41943040, 41943040].sum)
    sum_three_chunks_pos w3 hw3
  rw [hwr3]
  dsimp only
  rw [hfc, rot_three_chunks]
  simp [expNames, List.range_succ]

/-- Claim C4 (amended): with 40 MiB chunks and the 100 MiB threshold,
file index 0 is finalized during the THIRD chunk (the first two reach
only 80 MiB): after two chunks nothing is finalized; after the third,
file 0 is finalized with exactly `MAX_FILE_SIZE` bytes, the crossing
happened inside that single write call (the file count went from 1 to
2), and file 1 is open holding the 20971520-byte remainder; the final
`ForceClose` finalizes file 1 with those 20971520 bytes. -/
theorem claim_C4_three_chunks (p : WP) :
    (writeAll envAllOk [41943040, 41943040]
      (mkStreamDumper envAllOk p.ty p.dir p.ts p.ctr emptyWorld)).2.completedFiles
      = [] ∧
    GetFileCount (writeAll envAllOk [41943040, 41943040]
      (mkStreamDumper envAllOk p.ty p.dir p.ts p.ctr emptyWorld)).1 = 1 ∧
    (writeAll envAllOk [41943040, 41943040, 41943040]
      (mkStreamDumper envAllOk p.ty p.dir p.ts p.ctr emptyWorld)).2.completedFiles
      = [finalNameP p 0] ∧
    (writeAll envAllOk [41943040, 41943040, 41943040]
      (mkStreamDumper envAllOk p.ty p.dir p.ts p.ctr emptyWorld)).2.disk =
      [(finalPathP p 0, MAX_FILE_SIZE), (tmpPathP p 1, 20971520)] ∧
    GetFileCount (writeAll envAllOk [41943040, 41943040, 41943040]
      (mkStreamDumper envAllOk p.ty p.dir p.ts p.ctr emptyWorld)).1 = 2 ∧
    GetCurrentFileSize (writeAll envAllOk [41943040, 41943040, 41943040]
      (mkStreamDumper envAllOk p.ty p.dir p.ts p.ctr emptyWorld)).1 = 20971520 ∧
    (ForceClose envAllOk
      (writeAll envAllOk [41943040, 41943040, 41943040]
        (mkStreamDumper envAllOk p.ty p.dir p.ts p.ctr emptyWorld)).1
      (writeAll envAllOk [41943040, 41943040, 41943040]
        (mkStreamDumper envAllOk p.ty p.dir p.ts p.ctr emptyWorld)).2).2.disk =
      [(finalPathP p 0, MAX_FILE_SIZE), (finalPathP p 1, 20971520)] ∧
    (ForceClose envAllOk
      (writeAll envAllOk [41943040, 41943040, 41943040]
        (mkStreamDumper envAllOk p.ty p.dir p.ts p.ctr emptyWorld)).1
      (writeAll envAllOk [41943040, 41943040, 41943040]
        (mkStreamDumper envAllOk p.ty p.dir p.ts p.ctr emptyWorld)).2).2.completedFiles =
      [finalNameP p 0, finalNameP p 1] :=
  ⟨auxC4a p, auxC4b p, auxC4c p, auxC4d p, auxC4e p, auxC4f p, auxC4g p,
    auxC4h p⟩


/-- The finalize-order events an external observer can see: successful
renames and coordinator notifications, in trace order. -/
def rnEvents (l : List Event) : List Event :=
  l.filter fun e =>
    match e with
    | .renamed _ _ _ => true
    | .notified _ => true
    | _ => false

/-- The filenames carried by coordinator notifications, in trace
order. -/
def notifiedNames (l : List Event) : List String :=
  l.filterMap fun e =>
    match e with
    | .notified n => some n
    | _ => none

/-- The finalize-order discipline: the renames and notifications of a
trace come in consecutive pairs, each successful rename into directory
`D` immediately followed by the notification carrying exactly the
renamed-to filename. -/
inductive RNPaired (D : String) : List Event → Prop
  | nil : RNPaired D []
  | pair (a n : String) (v : Nat) (l : List Event) (h : RNPaired D l) :
      RNPaired D (l ++ [Event.renamed a (D ++ n) v, Event.notified n])

/-- One externally driven call on a writer: `WriteData` with a non-null
buffer of `sz` bytes, or `ForceClose`. -/
inductive Op
  | write (sz : Nat)
  | close

/-- Run one call against a writer/world pair. -/
def runOp (env : Env) (sw : Dumper × World) : Op → Dumper × World
  | .write sz => (WriteData env false sz sw.1 sw.2).2
  | .close => ForceClose env sw.1 sw.2

/-- Run a sequence of calls against a writer/world pair. -/
def runOps (env : Env) (ops : List Op) (sw : Dumper × World) :
    Dumper × World :=
  ops.foldl (runOp env) sw

theorem rnEvents_append (a b : List Event) :
    rnEvents (a ++ b) = rnEvents a ++ rnEvents b :=
  List.filter_append a b

theorem notifiedNames_append (a b : List Event) :
    notifiedNames (a ++ b) = notifiedNames a ++ notifiedNames b :=
  List.filterMap_append a b _

theorem diskLookup_set_self : ∀ (d : List (String × Nat)) (n : String)
    (v : Nat), diskLookup (diskSet d n v) n = some v
  | [], n, v => by simp [diskSet, diskLookup]
  | e :: rest, n, v => by
    by_cases h : e.1 = n
    · simp [diskSet, h, diskLookup]
    · simp only [diskSet, if_neg h, diskLookup, if_neg h]
      exact diskLookup_set_self rest n v

theorem diskLookup_set_ne {k n : String} (hk : k ≠ n) :
    ∀ (d : List (String × Nat)) (v : Nat),
      diskLookup (diskSet d n v) k = diskLookup d k
  | [], v => by
    have hnk : ¬ n = k := fun x => hk x.symm
    simp [diskSet, diskLookup, hnk]
  | e :: rest, v => by
    by_cases h : e.1 = n
    · have hnk : ¬ n = k := fun x => hk x.symm
      have hek : ¬ e.1 = k := by rw [h]; exact hnk
      simp [diskSet, h, diskLookup, hnk, hek]
    · by_cases h2 : e.1 = k
      · simp only [diskSet, if_neg h]
        simp [diskLookup, h2]
      · simp only [diskSet, if_neg h, diskLookup, if_neg h2]
        exact diskLookup_set_ne hk rest v

theorem diskRemove_cons (e : String × Nat) (rest : List (String × Nat))
    (n : String) : diskRemove (e :: rest) n =
      if e.1 = n then diskRemove rest n else e :: diskRemove rest n := by
  by_cases h : e.1 = n
  · simp [diskRemove, List.filter_cons, h]
  · simp [diskRemove, List.filter_cons, h]

theorem diskLookup_remove_ne {k n : String} (hk : k ≠ n) :
    ∀ d : List (String × Nat),
      diskLookup (diskRemove d n) k = diskLookup d k
  | [] => rfl
  | e :: rest => by
    rw [diskRemove_cons]
    by_cases h : e.1 = n
    · rw [if_pos h, diskLookup_remove_ne hk rest]
      have hek : ¬ e.1 = k := by rw [h]; exact fun x => hk x.symm
      simp [diskLookup, hek]
    · rw [if_neg h]
      by_cases h2 : e.1 = k
      · simp [diskLookup, h2]
      · simp only [diskLookup, if_neg h2]
        exact diskLookup_remove_ne hk rest

theorem finalPathP_dir (p : WP) (i : Nat) :
    finalPathP p i = p.dir ++ finalNameP p i := rfl

theorem finalNameP_inj (p : WP) {i j : Nat}
    (h : finalNameP p i = finalNameP p j) : i = j :=
  gen_index_inj _ _ _ _ h

/-- The single-writer safety invariant: the writer's construction
parameters never change; while a file is open its path and name are the
temp path and final name of file `mFileIndex - 1`; every byte ever
written went to a temp-named path; every final-named file on disk got
there through a successful rename recorded in the trace, with its disk
size equal to the renamed size; renames and notifications come in
immediate pairs; every notification names a file index below the
writer's current index, no file is notified twice, and the
coordinator's completed-file list is exactly the notified names. -/
structure Inv (p : WP) (s : Dumper) (w : World) : Prop where
  ty_eq : s.mType = p.ty
  dir_eq : s.mDumpDirectory = p.dir
  ts_eq : s.mTimestamp = p.ts
  ctr_eq : s.mBaseCounter = p.ctr
  open_path : s.mFileOpen = true →
    s.mCurrentFilePath = tmpPathP p (s.mFileIndex - 1)
  open_name : s.mFileOpen = true →
    s.mCurrentFilename = finalNameP p (s.mFileIndex - 1)
  open_pos : s.mFileOpen = true → 0 < s.mFileIndex
  wrote_tmp : ∀ path n, Event.wrote path n ∈ w.trace →
    ∃ i, path = tmpPathP p i
  final_rename : ∀ i v, diskLookup w.disk (finalPathP p i) = some v →
    Event.renamed (tmpPathP p i) (finalPathP p i) v ∈ w.trace
  rn_paired : RNPaired p.dir (rnEvents w.trace)
  notif_idx : ∀ n ∈ notifiedNames w.trace, ∃ j, n = finalNameP p j ∧
    j + 1 ≤ s.mFileIndex ∧ (s.mFileOpen = true → j + 1 < s.mFileIndex)
  notif_nodup : (notifiedNames w.trace).Nodup
  completed_eq : w.completedFiles = notifiedNames w.trace



theorem OnDump_trace (env : Env) (f : String) (w : World) :
    (OnDumpFileCompleted env f w).trace = w.trace ++ [Event.notified f] := by
  simp only [OnDumpFileCompleted]
  split <;> rfl

theorem OnDump_disk (env : Env) (f : String) (w : World) :
    (OnDumpFileCompleted env f w).disk = w.disk := by
  simp only [OnDumpFileCompleted]
  split <;> rfl

theorem OnDump_completed (env : Env) (f : String) (w : World) :
    (OnDumpFileCompleted env f w).completedFiles =
      w.completedFiles ++ [f] := by
  simp only [OnDumpFileCompleted]
  split <;> rfl

theorem CloseCurrentFile_closed_eq (env : Env) (c : Bool) (s : Dumper)
    (w : World) (h : s.mFileOpen = false) :
    CloseCurrentFile env c s w = (s, w) := by
  unfold CloseCurrentFile
  rw [if_neg (by simp [h])]

theorem CloseCurrentFile_rename_eq (env : Env) (c : Bool) (s : Dumper)
    (w : World) (hopen : s.mFileOpen = true)
    (hc : c = true ∧ 0 < s.mCurrentFileSize)
    (hrn : env.renameOk w.trace.length = true) :
    CloseCurrentFile env c s w =
      ({ s with mFileOpen := false, mCurrentFilePath := "" },
        OnDumpFileCompleted env s.mCurrentFilename
          { w with
            disk := diskSet (diskRemove w.disk s.mCurrentFilePath)
              (s.mDumpDirectory ++ s.mCurrentFilename)
              ((diskLookup w.disk s.mCurrentFilePath).getD 0)
            trace := w.trace ++ [Event.renamed s.mCurrentFilePath
              (s.mDumpDirectory ++ s.mCurrentFilename)
              ((diskLookup w.disk s.mCurrentFilePath).getD 0)] }) := by
  unfold CloseCurrentFile
  rw [if_pos hopen, if_pos (by exact ⟨hc.1, hc.2⟩), if_pos hrn]

theorem CloseCurrentFile_renameFailed_eq (env : Env) (c : Bool)
    (s : Dumper) (w : World) (hopen : s.mFileOpen = true)
    (hc : c = true ∧ 0 < s.mCurrentFileSize)
    (hrn : env.renameOk w.trace.length = false) :
    CloseCurrentFile env c s w =
      ({ s with mFileOpen := false, mCurrentFilePath := "" },
        { w with trace := w.trace ++
            [Event.renameFailed s.mCurrentFilePath] }) := by
  unfold CloseCurrentFile
  rw [if_pos hopen, if_pos (by exact ⟨hc.1, hc.2⟩), if_neg (by simp [hrn])]

theorem CloseCurrentFile_unlink_eq (env : Env) (c : Bool) (s : Dumper)
    (w : World) (hopen : s.mFileOpen = true)
    (hc : ¬ (c = true ∧ 0 < s.mCurrentFileSize)) :
    CloseCurrentFile env c s w =
      ({ s with mFileOpen := false, mCurrentFilePath := "" },
        { w with
          disk := diskRemove w.disk s.mCurrentFilePath
          trace := w.trace ++ [Event.unlinked s.mCurrentFilePath] }) := by
  unfold CloseCurrentFile
  rw [if_pos hopen, if_neg (fun hx => hc ⟨hx.1, hx.2⟩)]

theorem CloseCurrentFile_fst_closed (env : Env) (c : Bool) (s : Dumper)
    (w : World) : (CloseCurrentFile env c s w).1.mFileOpen = false := by
  by_cases hopen : s.mFileOpen = true
  · by_cases hc : c = true ∧ 0 < s.mCurrentFileSize
    · by_cases hrn : env.renameOk w.trace.length = true
      · rw [CloseCurrentFile_rename_eq env c s w hopen hc hrn]
      · rw [CloseCurrentFile_renameFailed_eq env c s w hopen hc
          (by simpa using hrn)]
    · rw [CloseCurrentFile_unlink_eq env c s w hopen hc]
  · rw [CloseCurrentFile_closed_eq env c s w (by simpa using hopen)]
    simpa using hopen

theorem OpenNewFile_ok_eq (env : Env) (s : Dumper) (w : World)
    (hok : env.openOk w.trace.length = true) :
    OpenNewFile env s w =
      (true,
        { s with
          mCurrentFilename :=
            GenerateFilename s.mType s.mTimestamp s.mBaseCounter s.mFileIndex false
          mCurrentFilePath := s.mDumpDirectory ++
            GenerateFilename s.mType s.mTimestamp s.mBaseCounter s.mFileIndex true
          mFileOpen := true
          mCurrentFileSize := 0
          mBytesSinceFlush := 0
          mBufferOffset := 0
          mFileCount := s.mFileCount + 1
          mFileIndex := s.mFileIndex + 1 },
        { w with
          disk := diskSet w.disk (s.mDumpDirectory ++
            GenerateFilename s.mType s.mTimestamp s.mBaseCounter s.mFileIndex true) 0
          trace := w.trace ++ [Event.opened (s.mDumpDirectory ++
            GenerateFilename s.mType s.mTimestamp s.mBaseCounter s.mFileIndex true)] }) := by
  unfold OpenNewFile
  rw [if_pos hok]

theorem OpenNewFile_fail_eq (env : Env) (s : Dumper) (w : World)
    (hok : env.openOk w.trace.length = false) :
    OpenNewFile env s w =
      (false,
        { s with
          mCurrentFilename :=
            GenerateFilename s.mType s.mTimestamp s.mBaseCounter s.mFileIndex false
          mCurrentFilePath := s.mDumpDirectory ++
            GenerateFilename s.mType s.mTimestamp s.mBaseCounter s.mFileIndex true },
        w) := by
  unfold OpenNewFile
  rw [if_neg (by simp [hok])]

theorem FlushBuffer_zero_eq (env : Env) (s : Dumper) (w : World)
    (h : s.mBufferOffset = 0) : FlushBuffer env s w = (true, s, w) := by
  unfold FlushBuffer
  rw [if_pos h]

theorem FlushBuffer_ok_eq (env : Env) (s : Dumper) (w : World)
    (ho : ¬ s.mBufferOffset = 0) (hopen : s.mFileOpen = true)
    (hwr : env.writeOk w.trace.length = true) :
    FlushBuffer env s w =
      (true,
        { s with
          mCurrentFileSize := s.mCurrentFileSize + s.mBufferOffset
          mTotalBytesWritten := s.mTotalBytesWritten + s.mBufferOffset
          mBytesSinceFlush := s.mBytesSinceFlush + s.mBufferOffset
          mBufferOffset := 0 },
        { w with
          disk := diskSet w.disk s.mCurrentFilePath
            ((diskLookup w.disk s.mCurrentFilePath).getD 0 + s.mBufferOffset)
          trace := w.trace ++
            [Event.wrote s.mCurrentFilePath s.mBufferOffset] }) := by
  unfold FlushBuffer
  rw [if_neg ho, if_pos hopen, if_pos hwr]

theorem FlushBuffer_closed_eq (env : Env) (s : Dumper) (w : World)
    (ho : ¬ s.mBufferOffset = 0) (hopen : s.mFileOpen = false) :
    FlushBuffer env s w = (false, s, w) := by
  unfold FlushBuffer
  rw [if_neg ho, if_neg (by simp [hopen])]

theorem FlushBuffer_wfail_eq (env : Env) (s : Dumper) (w : World)
    (ho : ¬ s.mBufferOffset = 0) (hopen : s.mFileOpen = true)
    (hwr : env.writeOk w.trace.length = false) :
    FlushBuffer env s w = (false, s, w) := by
  unfold FlushBuffer
  rw [if_neg ho, if_pos hopen, if_neg (by simp [hwr])]



theorem Inv_same_core (p : WP) {s s2 : Dumper} {w : World} (h : Inv p s w)
    (hty : s2.mType = s.mType) (hdir : s2.mDumpDirectory = s.mDumpDirectory)
    (hts : s2.mTimestamp = s.mTimestamp)
    (hctr : s2.mBaseCounter = s.mBaseCounter)
    (hopen : s2.mFileOpen = s.mFileOpen)
    (hpath : s2.mCurrentFilePath = s.mCurrentFilePath)
    (hname : s2.mCurrentFilename = s.mCurrentFilename)
    (hidx : s2.mFileIndex = s.mFileIndex) : Inv p s2 w := by
  refine ⟨hty.trans h.ty_eq, hdir.trans h.dir_eq, hts.trans h.ts_eq,
    hctr.trans h.ctr_eq, ?_, ?_, ?_, h.wrote_tmp, h.final_rename,
    h.rn_paired, ?_, h.notif_nodup, h.completed_eq⟩
  · intro ho
    rw [hpath, hidx]
    exact h.open_path (hopen ▸ ho)
  · intro ho
    rw [hname, hidx]
    exact h.open_name (hopen ▸ ho)
  · intro ho
    rw [hidx]
    exact h.open_pos (hopen ▸ ho)
  · intro n hn
    obtain ⟨j, e1, e2, e3⟩ := h.notif_idx n hn
    refine ⟨j, e1, by rw [hidx]; exact e2, fun ho => ?_⟩
    rw [hidx]
    exact e3 (hopen ▸ ho)

theorem Inv_world_step (p : WP) {s : Dumper} {w : World} (h : Inv p s w)
    (d2 : List (String × Nat)) (l : List Event)
    (hW : ∀ path n, Event.wrote path n ∈ l → ∃ i, path = tmpPathP p i)
    (hF : ∀ i v, diskLookup d2 (finalPathP p i) = some v →
      Event.renamed (tmpPathP p i) (finalPathP p i) v ∈ w.trace ++ l)
    (hRN : rnEvents l = []) (hNN : notifiedNames l = []) :
    Inv p s { w with disk := d2, trace := w.trace ++ l } := by
  refine ⟨h.ty_eq, h.dir_eq, h.ts_eq, h.ctr_eq, h.open_path, h.open_name,
    h.open_pos, ?_, hF, ?_, ?_, ?_, ?_⟩
  · intro path n hm
    rcases List.mem_append.mp hm with hm | hm
    · exact h.wrote_tmp path n hm
    · exact hW path n hm
  · rw [rnEvents_append, hRN, List.append_nil]
    exact h.rn_paired
  · intro n hn
    rw [notifiedNames_append, hNN, List.append_nil] at hn
    exact h.notif_idx n hn
  · rw [notifiedNames_append, hNN, List.append_nil]
    exact h.notif_nodup
  · rw [notifiedNames_append, hNN, List.append_nil]
    exact h.completed_eq

theorem Inv_checkPeriodic (p : WP) {s : Dumper} {w : World}
    (h : Inv p s w) : Inv p (checkPeriodic s) w := by
  unfold checkPeriodic
  split
  · exact Inv_same_core p h rfl rfl rfl rfl rfl rfl rfl rfl
  · exact h

theorem Inv_FlushBuffer (env : Env) (p : WP) (s : Dumper) (w : World)
    (h : Inv p s w) :
    Inv p (FlushBuffer env s w).2.1 (FlushBuffer env s w).2.2 := by
  by_cases ho : s.mBufferOffset = 0
  · rw [FlushBuffer_zero_eq env s w ho]
    exact h
  · by_cases hopen : s.mFileOpen = true
    · by_cases hwr : env.writeOk w.trace.length = true
      · rw [FlushBuffer_ok_eq env s w ho hopen hwr]
        have hpath := h.open_path hopen
        refine Inv_same_core p
          (Inv_world_step p h _ _ ?_ ?_ rfl rfl) rfl rfl rfl rfl rfl rfl rfl rfl
        · intro path n hm
          simp only [List.mem_singleton] at hm
          injection hm with h1 h2
          exact ⟨s.mFileIndex - 1, h1.trans hpath⟩
        · intro i v hl
          have hne : finalPathP p i ≠ s.mCurrentFilePath := by
            rw [hpath]
            exact finalPathP_ne_tmpPathP p i _
          rw [diskLookup_set_ne hne] at hl
          exact List.mem_append.mpr (Or.inl (h.final_rename i v hl))
      · rw [FlushBuffer_wfail_eq env s w ho hopen (by simpa using hwr)]
        exact h
    · rw [FlushBuffer_closed_eq env s w ho (by simpa using hopen)]
      exact h

theorem Inv_OpenNewFile (env : Env) (p : WP) (s : Dumper) (w : World)
    (h : Inv p s w) (hcl : s.mFileOpen = false) :
    Inv p (OpenNewFile env s w).2.1 (OpenNewFile env s w).2.2 := by
  have hno : ¬ s.mFileOpen = true := by rw [hcl]; decide
  by_cases hok : env.openOk w.trace.length = true
  · rw [OpenNewFile_ok_eq env s w hok]
    have hpath : s.mDumpDirectory ++ GenerateFilename s.mType s.mTimestamp
        s.mBaseCounter s.mFileIndex true = tmpPathP p s.mFileIndex := by
      rw [h.dir_eq, h.ty_eq, h.ts_eq, h.ctr_eq]
      rfl
    have hw2 : Inv p s { w with
        disk := diskSet w.disk (s.mDumpDirectory ++ GenerateFilename s.mType
          s.mTimestamp s.mBaseCounter s.mFileIndex true) 0
        trace := w.trace ++ [Event.opened (s.mDumpDirectory ++
          GenerateFilename s.mType s.mTimestamp s.mBaseCounter
            s.mFileIndex true)] } := by
      refine Inv_world_step p h _ _ ?_ ?_ rfl rfl
      · intro path n hm
        simp at hm
      · intro i v hl
        have hne : finalPathP p i ≠ s.mDumpDirectory ++ GenerateFilename
            s.mType s.mTimestamp s.mBaseCounter s.mFileIndex true := by
          rw [hpath]
          exact finalPathP_ne_tmpPathP p i _
        rw [diskLookup_set_ne hne] at hl
        exact List.mem_append.mpr (Or.inl (h.final_rename i v hl))
    refine ⟨hw2.ty_eq, hw2.dir_eq, hw2.ts_eq, hw2.ctr_eq, ?_, ?_, ?_,
      hw2.wrote_tmp, hw2.final_rename, hw2.rn_paired, ?_, hw2.notif_nodup,
      hw2.completed_eq⟩
    · intro _
      show s.mDumpDirectory ++ GenerateFilename s.mType s.mTimestamp
        s.mBaseCounter s.mFileIndex true = tmpPathP p (s.mFileIndex + 1 - 1)
      rw [Nat.add_sub_cancel, hpath]
    · intro _
      show GenerateFilename s.mType s.mTimestamp s.mBaseCounter
        s.mFileIndex false = finalNameP p (s.mFileIndex + 1 - 1)
      rw [Nat.add_sub_cancel, h.ty_eq, h.ts_eq, h.ctr_eq]
      rfl
    · intro _
      show 0 < s.mFileIndex + 1
      exact Nat.succ_pos _
    · intro n hn
      obtain ⟨j, e1, e2, _⟩ := hw2.notif_idx n hn
      refine ⟨j, e1, ?_, fun _ => ?_⟩
      · show j + 1 ≤ s.mFileIndex + 1
        omega
      · show j + 1 < s.mFileIndex + 1
        omega
  · rw [OpenNewFile_fail_eq env s w (by simpa using hok)]
    refine ⟨h.ty_eq, h.dir_eq, h.ts_eq, h.ctr_eq, ?_, ?_, ?_, h.wrote_tmp,
      h.final_rename, h.rn_paired, ?_, h.notif_nodup, h.completed_eq⟩
    · intro ho
      exact absurd (show s.mFileOpen = true from ho) hno
    · intro ho
      exact absurd (show s.mFileOpen = true from ho) hno
    · intro ho
      exact absurd (show s.mFileOpen = true from ho) hno
    · intro n hn
      obtain ⟨j, e1, e2, _⟩ := h.notif_idx n hn
      exact ⟨j, e1, e2, fun ho =>
        absurd (show s.mFileOpen = true from ho) hno⟩



theorem Inv_CloseCurrentFile (env : Env) (c : Bool) (p : WP) (s : Dumper)
    (w : World) (h : Inv p s w) :
    Inv p (CloseCurrentFile env c s w).1 (CloseCurrentFile env c s w).2 := by
  by_cases hopen : s.mFileOpen = true
  · have hpath := h.open_path hopen
    have hname := h.open_name hopen
    have hposi := h.open_pos hopen
    by_cases hc : c = true ∧ 0 < s.mCurrentFileSize
    · by_cases hrn : env.renameOk w.trace.length = true
      · rw [CloseCurrentFile_rename_eq env c s w hopen hc hrn]
        have hfP : s.mDumpDirectory ++ s.mCurrentFilename =
            finalPathP p (s.mFileIndex - 1) := by
          rw [h.dir_eq, hname]
          rfl
        refine ⟨h.ty_eq, h.dir_eq, h.ts_eq, h.ctr_eq, ?_, ?_, ?_, ?_, ?_,
          ?_, ?_, ?_, ?_⟩
        · intro ho
          exact Bool.noConfusion ho
        · intro ho
          exact Bool.noConfusion ho
        · intro ho
          exact Bool.noConfusion ho
        · intro path n hm
          rw [OnDump_trace] at hm
          have hm2 : Event.wrote path n ∈
              (w.trace ++ [Event.renamed s.mCurrentFilePath
                (s.mDumpDirectory ++ s.mCurrentFilename)
                ((diskLookup w.disk s.mCurrentFilePath).getD 0)]) ++
              [Event.notified s.mCurrentFilename] := hm
          rcases List.mem_append.mp hm2 with hm3 | hm3
          · rcases List.mem_append.mp hm3 with hm4 | hm4
            · exact h.wrote_tmp path n hm4
            · simp at hm4
          · simp at hm3
        · intro i v hl
          rw [OnDump_disk] at hl
          have hl2 : diskLookup (diskSet (diskRemove w.disk
              s.mCurrentFilePath) (s.mDumpDirectory ++ s.mCurrentFilename)
              ((diskLookup w.disk s.mCurrentFilePath).getD 0))
              (finalPathP p i) = some v := hl
          rw [OnDump_trace]
          by_cases hk : i = s.mFileIndex - 1
          · subst hk
            rw [hfP, diskLookup_set_self] at hl2
            have hv : ((diskLookup w.disk s.mCurrentFilePath).getD 0) = v :=
              Option.some.inj hl2
            rw [← hv, ← hfP, ← hpath]
            exact List.mem_append.mpr (Or.inl (List.mem_append.mpr
              (Or.inr (List.mem_singleton.mpr rfl))))
          · have hne1 : finalPathP p i ≠
                s.mDumpDirectory ++ s.mCurrentFilename := by
              rw [hfP]
              exact fun hx => hk (finalPathP_inj p hx)
            have hne2 : finalPathP p i ≠ s.mCurrentFilePath := by
              rw [hpath]
              exact finalPathP_ne_tmpPathP p i _
            rw [diskLookup_set_ne hne1, diskLookup_remove_ne hne2] at hl2
            exact List.mem_append.mpr (Or.inl (List.mem_append.mpr
              (Or.inl (h.final_rename i v hl2))))
        · rw [OnDump_trace]
          have he : ((w.trace ++ [Event.renamed s.mCurrentFilePath
              (s.mDumpDirectory ++ s.mCurrentFilename)
              ((diskLookup w.disk s.mCurrentFilePath).getD 0)]) ++
              [Event.notified s.mCurrentFilename]) =
              w.trace ++ [Event.renamed s.mCurrentFilePath
                (p.dir ++ s.mCurrentFilename)
                ((diskLookup w.disk s.mCurrentFilePath).getD 0),
                Event.notified s.mCurrentFilename] := by
            rw [h.dir_eq, List.append_assoc]
            rfl
          rw [he, rnEvents_append]
          have hr1 : rnEvents [Event.renamed s.mCurrentFilePath
              (p.dir ++ s.mCurrentFilename)
              ((diskLookup w.disk s.mCurrentFilePath).getD 0),
              Event.notified s.mCurrentFilename] =
              [Event.renamed s.mCurrentFilePath
                (p.dir ++ s.mCurrentFilename)
                ((diskLookup w.disk s.mCurrentFilePath).getD 0),
                Event.notified s.mCurrentFilename] := rfl
          rw [hr1]
          exact RNPaired.pair s.mCurrentFilePath s.mCurrentFilename
            ((diskLookup w.disk s.mCurrentFilePath).getD 0)
            (rnEvents w.trace) h.rn_paired
        · intro n hn
          rw [OnDump_trace, notifiedNames_append] at hn
          have hs : notifiedNames [Event.notified s.mCurrentFilename] =
              [s.mCurrentFilename] := rfl
          rw [notifiedNames_append, hs] at hn
          rcases List.mem_append.mp hn with hn2 | hn2
          · rcases List.mem_append.mp hn2 with hn3 | hn3
            · obtain ⟨j, e1, e2, _⟩ := h.notif_idx n hn3
              exact ⟨j, e1, e2, fun ho => Bool.noConfusion ho⟩
            · simp [notifiedNames] at hn3
          · rw [List.mem_singleton.mp hn2]
            refine ⟨s.mFileIndex - 1, hname, ?_, fun ho =>
              Bool.noConfusion ho⟩
            show s.mFileIndex - 1 + 1 ≤ s.mFileIndex
            omega
        · rw [OnDump_trace, notifiedNames_append]
          have hs : notifiedNames ((w.trace ++ [Event.renamed
              s.mCurrentFilePath (s.mDumpDirectory ++ s.mCurrentFilename)
              ((diskLookup w.disk s.mCurrentFilePath).getD 0)])) =
              notifiedNames w.trace := by
            rw [notifiedNames_append]
            have h0 : notifiedNames [Event.renamed s.mCurrentFilePath
                (s.mDumpDirectory ++ s.mCurrentFilename)
                ((diskLookup w.disk s.mCurrentFilePath).getD 0)] = [] := rfl
            rw [h0, List.append_nil]
          have hs2 : notifiedNames [Event.notified s.mCurrentFilename] =
              [s.mCurrentFilename] := rfl
          rw [hs, hs2]
          have hfresh : s.mCurrentFilename ∉ notifiedNames w.trace := by
            intro hmem
            obtain ⟨j, e1, _, e3⟩ := h.notif_idx _ hmem
            have hj := e3 hopen
            rw [hname] at e1
            have := finalNameP_inj p e1
            omega
          simp [List.nodup_append, h.notif_nodup, hfresh]
        · rw [OnDump_completed, OnDump_trace, notifiedNames_append]
          have hs : notifiedNames ((w.trace ++ [Event.renamed
              s.mCurrentFilePath (s.mDumpDirectory ++ s.mCurrentFilename)
              ((diskLookup w.disk s.mCurrentFilePath).getD 0)])) =
              notifiedNames w.trace := by
            rw [notifiedNames_append]
            have h0 : notifiedNames [Event.renamed s.mCurrentFilePath
                (s.mDumpDirectory ++ s.mCurrentFilename)
                ((diskLookup w.disk s.mCurrentFilePath).getD 0)] = [] := rfl
            rw [h0, List.append_nil]
          have hs2 : notifiedNames [Event.notified s.mCurrentFilename] =
              [s.mCurrentFilename] := rfl
          rw [hs, hs2, h.completed_eq]
      · rw [CloseCurrentFile_renameFailed_eq env c s w hopen hc
          (by simpa using hrn)]
        have hw2 : Inv p s { w with
            trace := w.trace ++ [Event.renameFailed s.mCurrentFilePath] } := by
          refine Inv_world_step p h _ _ ?_ ?_ rfl rfl
          · intro path n hm
            simp at hm
          · intro i v hl
            exact List.mem_append.mpr (Or.inl (h.final_rename i v hl))
        refine ⟨hw2.ty_eq, hw2.dir_eq, hw2.ts_eq, hw2.ctr_eq, ?_, ?_, ?_,
          hw2.wrote_tmp, hw2.final_rename, hw2.rn_paired, ?_,
          hw2.notif_nodup, hw2.completed_eq⟩
        · intro ho
          exact Bool.noConfusion ho
        · intro ho
          exact Bool.noConfusion ho
        · intro ho
          exact Bool.noConfusion ho
        · intro n hn
          obtain ⟨j, e1, e2, _⟩ := hw2.notif_idx n hn
          exact ⟨j, e1, e2, fun ho => Bool.noConfusion ho⟩
    · rw [CloseCurrentFile_unlink_eq env c s w hopen hc]
      have hw2 : Inv p s { w with
          disk := diskRemove w.disk s.mCurrentFilePath
          trace := w.trace ++ [Event.unlinked s.mCurrentFilePath] } := by
        refine Inv_world_step p h _ _ ?_ ?_ rfl rfl
        · intro path n hm
          simp at hm
        · intro i v hl
          have hne : finalPathP p i ≠ s.mCurrentFilePath := by
            rw [hpath]
            exact finalPathP_ne_tmpPathP p i _
          rw [diskLookup_remove_ne hne] at hl
          exact List.mem_append.mpr (Or.inl (h.final_rename i v hl))
      refine ⟨hw2.ty_eq, hw2.dir_eq, hw2.ts_eq, hw2.ctr_eq, ?_, ?_, ?_,
        hw2.wrote_tmp, hw2.final_rename, hw2.rn_paired, ?_,
        hw2.notif_nodup, hw2.completed_eq⟩
      · intro ho
        exact Bool.noConfusion ho
      · intro ho
        exact Bool.noConfusion ho
      · intro ho
        exact Bool.noConfusion ho
      · intro n hn
        obtain ⟨j, e1, e2, _⟩ := hw2.notif_idx n hn
        exact ⟨j, e1, e2, fun ho => Bool.noConfusion ho⟩
  · rw [CloseCurrentFile_closed_eq env c s w (by simpa using hopen)]
    exact h



theorem Inv_WriteIterCopy (env : Env) (p : WP) (m : Nat) (s : Dumper)
    (w : World) (h : Inv p s w) :
    Inv p (WriteIterCopy env m s w).2.2.1 (WriteIterCopy env m s w).2.2.2 := by
  have h1 : Inv p { s with mBufferOffset :=
      s.mBufferOffset + min m (BUFFER_SIZE - s.mBufferOffset) } w :=
    Inv_same_core p h rfl rfl rfl rfl rfl rfl rfl rfl
  simp only [WriteIterCopy]
  split
  · split
    · rename_i s2 w2 heq
      have h3 := Inv_FlushBuffer env p _ w h1
      rw [heq] at h3
      exact Inv_checkPeriodic p h3
    · rename_i s2 w2 heq
      have h3 := Inv_FlushBuffer env p _ w h1
      rw [heq] at h3
      exact Inv_same_core p h3 rfl rfl rfl rfl rfl rfl rfl rfl
  · exact Inv_checkPeriodic p h1

theorem Inv_WriteIter (env : Env) (p : WP) (m : Nat) (s : Dumper)
    (w : World) (h : Inv p s w) :
    Inv p (WriteIter env m s w).2.2.1 (WriteIter env m s w).2.2.2 := by
  simp only [WriteIter]
  split
  · have h1 : Inv p (CloseCurrentFile env true s w).1
        (CloseCurrentFile env true s w).2 :=
      Inv_CloseCurrentFile env true p s w h
    have hcl1 : (CloseCurrentFile env true s w).1.mFileOpen = false :=
      CloseCurrentFile_fst_closed env true s w
    rcases hop : (OpenNewFile env (CloseCurrentFile env true s w).1
        (CloseCurrentFile env true s w).2) with ⟨b, s2, w2⟩
    have h2 : Inv p s2 w2 := by
      have h3 := Inv_OpenNewFile env p _ _ h1 hcl1
      rw [hop] at h3
      exact h3
    cases b with
    | false => exact Inv_same_core p h2 rfl rfl rfl rfl rfl rfl rfl rfl
    | true => exact Inv_WriteIterCopy env p m s2 w2 h2
  · exact Inv_WriteIterCopy env p m s w h

theorem Inv_WriteLoop (env : Env) (p : WP) :
    ∀ (fuel remaining : Nat) (s : Dumper) (w : World), Inv p s w →
      Inv p (WriteLoop env fuel remaining s w).2.1
        (WriteLoop env fuel remaining s w).2.2
  | fuel, 0, s, w, h => by
    simp only [WriteLoop]
    exact h
  | 0, r + 1, s, w, h => by
    simp only [WriteLoop]
    exact Inv_same_core p h rfl rfl rfl rfl rfl rfl rfl rfl
  | fuel + 1, r + 1, s, w, h => by
    simp only [WriteLoop]
    rcases hit : (WriteIter env (r + 1) s w) with ⟨b, r2, s2, w2⟩
    have h2 : Inv p s2 w2 := by
      have h3 := Inv_WriteIter env p (r + 1) s w h
      rw [hit] at h3
      exact h3
    cases b with
    | false => exact h2
    | true => exact Inv_WriteLoop env p fuel r2 s2 w2 h2

theorem Inv_WriteData (env : Env) (p : WP) (bn : Bool) (sz : Nat)
    (s : Dumper) (w : World) (h : Inv p s w) :
    Inv p (WriteData env bn sz s w).2.1 (WriteData env bn sz s w).2.2 := by
  unfold WriteData
  split
  · exact h
  · rcases hwl : (WriteLoop env sz sz s w) with ⟨b, s2, w2⟩
    have h2 : Inv p s2 w2 := by
      have h3 := Inv_WriteLoop env p sz sz s w h
      rw [hwl] at h3
      exact h3
    cases b with
    | false => exact h2
    | true => exact h2

theorem Inv_ForceClose (env : Env) (p : WP) (s : Dumper) (w : World)
    (h : Inv p s w) :
    Inv p (ForceClose env s w).1 (ForceClose env s w).2 := by
  simp only [ForceClose]
  by_cases hopen : s.mFileOpen = true
  · rw [if_pos hopen]
    have hpath := h.open_path hopen
    by_cases hoff : 0 < s.mBufferOffset
    · rw [if_pos hoff]
      have hw1 : Inv p s { w with
          disk := diskSet w.disk s.mCurrentFilePath
            ((diskLookup w.disk s.mCurrentFilePath).getD 0 + s.mBufferOffset)
          trace := w.trace ++
            [Event.wrote s.mCurrentFilePath s.mBufferOffset] } := by
        refine Inv_world_step p h _ _ ?_ ?_ rfl rfl
        · intro path n hm
          simp only [List.mem_singleton] at hm
          injection hm with h1 h2
          exact ⟨s.mFileIndex - 1, h1.trans hpath⟩
        · intro i v hl
          have hne : finalPathP p i ≠ s.mCurrentFilePath := by
            rw [hpath]
            exact finalPathP_ne_tmpPathP p i _
          rw [diskLookup_set_ne hne] at hl
          exact List.mem_append.mpr (Or.inl (h.final_rename i v hl))
      have hI1 : Inv p { s with
          mCurrentFileSize := s.mCurrentFileSize + s.mBufferOffset
          mTotalBytesWritten := s.mTotalBytesWritten + s.mBufferOffset
          mBufferOffset := 0 } { w with
          disk := diskSet w.disk s.mCurrentFilePath
            ((diskLookup w.disk s.mCurrentFilePath).getD 0 + s.mBufferOffset)
          trace := w.trace ++
            [Event.wrote s.mCurrentFilePath s.mBufferOffset] } :=
        Inv_same_core p hw1 rfl rfl rfl rfl rfl rfl rfl rfl
      have h2 := Inv_CloseCurrentFile env true p _ _ hI1
      exact Inv_same_core p h2 rfl rfl rfl rfl rfl rfl rfl rfl
    · rw [if_neg hoff]
      have h2 := Inv_CloseCurrentFile env true p s w h
      exact Inv_same_core p h2 rfl rfl rfl rfl rfl rfl rfl rfl
  · rw [if_neg hopen]
    exact Inv_same_core p h rfl rfl rfl rfl rfl rfl rfl rfl

theorem Inv_runOp (env : Env) (p : WP) (sw : Dumper × World)
    (h : Inv p sw.1 sw.2) (op : Op) :
    Inv p (runOp env sw op).1 (runOp env sw op).2 := by
  cases op with
  | write sz => exact Inv_WriteData env p false sz sw.1 sw.2 h
  | close => exact Inv_ForceClose env p sw.1 sw.2 h

theorem Inv_runOps (env : Env) (p : WP) :
    ∀ (ops : List Op) (sw : Dumper × World), Inv p sw.1 sw.2 →
      Inv p (runOps env ops sw).1 (runOps env ops sw).2
  | [], _, h => h
  | op :: ops, sw, h =>
    Inv_runOps env p ops (runOp env sw op) (Inv_runOp env p sw h op)

theorem Inv_mk (env : Env) (p : WP) :
    Inv p (mkStreamDumper env p.ty p.dir p.ts p.ctr emptyWorld).1
      (mkStreamDumper env p.ty p.dir p.ts p.ctr emptyWorld).2 := by
  have h0 : Inv p
      { mType := p.ty
        mDumpDirectory := p.dir
        mTimestamp := p.ts
        mBaseCounter := p.ctr
        mFileIndex := 0
        mFileOpen := false
        mCurrentFilePath := ""
        mCurrentFilename := ""
        mBufferOffset := 0
        mCurrentFileSize := 0
        mBytesSinceFlush := 0
        mTotalBytesWritten := 0
        mFileCount := 0
        mIsValid := false } emptyWorld := by
    refine ⟨rfl, rfl, rfl, rfl, ?_, ?_, ?_, ?_, ?_, ?_, ?_, ?_, rfl⟩
    · intro ho
      exact Bool.noConfusion ho
    · intro ho
      exact Bool.noConfusion ho
    · intro ho
      exact Bool.noConfusion ho
    · intro path n hm
      simp [emptyWorld] at hm
    · intro i v hl
      simp [emptyWorld, diskLookup] at hl
    · exact RNPaired.nil
    · intro n hn
      simp [emptyWorld, notifiedNames] at hn
    · simp [emptyWorld, notifiedNames]
  simp only [mkStreamDumper]
  split
  · rename_i s1 w1 heq
    have h2 := Inv_OpenNewFile env p _ emptyWorld h0 rfl
    rw [heq] at h2
    exact Inv_same_core p h2 rfl rfl rfl rfl rfl rfl rfl rfl
  · rename_i s1 w1 heq
    have h2 := Inv_OpenNewFile env p _ emptyWorld h0 rfl
    rw [heq] at h2
    exact h2



/-- Claim C1: over every sequence of writer calls under any environment,
every byte ever written lands on a temp-named (`.pcm.tmp`) path, and a
final-named (`.pcm`) file exists on disk only after a successful rename
of the corresponding temp file, recorded in the trace with exactly the
size the file holds on disk — so no final-named file is ever receiving
writes, and none is ever observed with fewer bytes than its completed
size. -/
theorem claim_C1_atomic_finalize (env : Env) (p : WP) (ops : List Op) :
    (∀ path n, Event.wrote path n ∈
        (runOps env ops (mkStreamDumper env p.ty p.dir p.ts p.ctr
          emptyWorld)).2.trace → ∃ i, path = tmpPathP p i) ∧
    (∀ i v, diskLookup (runOps env ops (mkStreamDumper env p.ty p.dir p.ts
        p.ctr emptyWorld)).2.disk (finalPathP p i) = some v →
      Event.renamed (tmpPathP p i) (finalPathP p i) v ∈
        (runOps env ops (mkStreamDumper env p.ty p.dir p.ts p.ctr
          emptyWorld)).2.trace) := by
  have h := Inv_runOps env p ops
    (mkStreamDumper env p.ty p.dir p.ts p.ctr emptyWorld) (Inv_mk env p)
  exact ⟨h.wrote_tmp, h.final_rename⟩

/-- Claim C7: over every sequence of writer calls under any environment,
the renames and coordinator notifications in the trace come in immediate
pairs — each notification directly follows its successful rename and
carries the renamed-to filename — no filename is ever notified twice,
and the coordinator's completed-file record is exactly the list of
notified names; and when the rename fails at finalize, no notification
is emitted, the coordinator records nothing, the temp file is left on
disk untouched, and the writer's validity flag is unchanged. -/
theorem claim_C7_notify_once_after_rename :
    (∀ (env : Env) (p : WP) (ops : List Op),
      RNPaired p.dir (rnEvents (runOps env ops (mkStreamDumper env p.ty
        p.dir p.ts p.ctr emptyWorld)).2.trace) ∧
      (notifiedNames (runOps env ops (mkStreamDumper env p.ty p.dir p.ts
        p.ctr emptyWorld)).2.trace).Nodup ∧
      (runOps env ops (mkStreamDumper env p.ty p.dir p.ts p.ctr
        emptyWorld)).2.completedFiles =
        notifiedNames (runOps env ops (mkStreamDumper env p.ty p.dir p.ts
          p.ctr emptyWorld)).2.trace) ∧
    (∀ (env : Env) (s : Dumper) (w : World), s.mFileOpen = true →
      0 < s.mCurrentFileSize → env.renameOk w.trace.length = false →
      (CloseCurrentFile env true s w).2.disk = w.disk ∧
      (CloseCurrentFile env true s w).2.completedFiles =
        w.completedFiles ∧
      (CloseCurrentFile env true s w).2.trace =
        w.trace ++ [Event.renameFailed s.mCurrentFilePath] ∧
      (CloseCurrentFile env true s w).1.mIsValid = s.mIsValid ∧
      (CloseCurrentFile env true s w).1.mFileOpen = false) := by
  constructor
  · intro env p ops
    have h := Inv_runOps env p ops
      (mkStreamDumper env p.ty p.dir p.ts p.ctr emptyWorld) (Inv_mk env p)
    exact ⟨h.rn_paired, h.notif_nodup, h.completed_eq⟩
  · intro env s w hopen hsz hrn
    rw [CloseCurrentFile_renameFailed_eq env true s w hopen ⟨rfl, hsz⟩ hrn]
    exact ⟨rfl, rfl, rfl, rfl, rfl⟩


end AudioDump
